import Mathlib

/-!
Verification of the phone-automation agent (`phone_do_task` tool):
UI-tree compression, oracle-output parsing, action execution and the
bounded observe–decide–act loop, shallowly embedded from the TypeScript
source.  JavaScript dynamic values are modelled by `JsValue`; code that
can raise a runtime `TypeError` or throw an exception is modelled in
`Except String`.
-/

set_option maxRecDepth 10000

namespace Farid

mutual

/-- A JavaScript/JSON dynamic value.  `undef` models `undefined`
(absent property); the other constructors mirror JSON values.
Numbers are modelled as integers (the code only manipulates integral
coordinates and indices). -/
inductive JsValue where
  | undef : JsValue
  | null : JsValue
  | bool : Bool → JsValue
  | num : Int → JsValue
  | str : String → JsValue
  | arr : JsArr → JsValue
  | obj : JsObj → JsValue
deriving Repr, DecidableEq

/-- A JavaScript array of values. -/
inductive JsArr where
  | nil : JsArr
  | cons : JsValue → JsArr → JsArr
deriving Repr, DecidableEq

/-- The fields of a JavaScript object. -/
inductive JsObj where
  | nil : JsObj
  | cons : String → JsValue → JsObj → JsObj
deriving Repr, DecidableEq

end

mutual

/-- Structural equality test (strict `===` on JSON-like values). -/
def JsValue.beq : JsValue → JsValue → Bool
  | .undef, .undef => true
  | .null, .null => true
  | .bool a, .bool b => a == b
  | .num a, .num b => a == b
  | .str a, .str b => a == b
  | .arr a, .arr b => JsArr.beq a b
  | .obj a, .obj b => JsObj.beq a b
  | _, _ => false

def JsArr.beq : JsArr → JsArr → Bool
  | .nil, .nil => true
  | .cons x xs, .cons y ys => JsValue.beq x y && JsArr.beq xs ys
  | _, _ => false

def JsObj.beq : JsObj → JsObj → Bool
  | .nil, .nil => true
  | .cons k v fs, .cons k2 v2 fs2 => k == k2 && JsValue.beq v v2 && JsObj.beq fs fs2
  | _, _ => false

end

instance : BEq JsValue := ⟨JsValue.beq⟩
instance : BEq JsArr := ⟨JsArr.beq⟩
instance : BEq JsObj := ⟨JsObj.beq⟩

/-- Look a key up among an object's fields. -/
def JsObj.find? : JsObj → String → Option JsValue
  | .nil, _ => none
  | .cons k v rest, key => if k = key then some v else JsObj.find? rest key

/-- List-style induction for `JsArr` (the mutual recursor is awkward
for the `induction` tactic; this derives the usual principle through
strong induction on `sizeOf`). -/
theorem JsArr.indArr (motive : JsArr → Prop) (h0 : motive .nil)
    (h1 : ∀ x xs, motive xs → motive (.cons x xs)) : ∀ xs, motive xs := by
  have main : ∀ (m : Nat) (xs : JsArr), sizeOf xs ≤ m → motive xs := by
    intro m
    induction m using Nat.strong_induction_on with
    | _ m ih =>
      intro xs hsz
      cases xs with
      | nil => exact h0
      | cons x rest =>
        refine h1 x rest (ih (sizeOf rest) ?_ rest (Nat.le_refl _))
        simp only [JsArr.cons.sizeOf_spec] at hsz
        have hx : 0 < sizeOf x := by
          cases x <;> simp
        omega
  intro xs
  exact main (sizeOf xs) xs (Nat.le_refl _)

/-- List-style induction for `JsObj`. -/
theorem JsObj.indObj (motive : JsObj → Prop) (h0 : motive .nil)
    (h1 : ∀ k v fs, motive fs → motive (.cons k v fs)) : ∀ fs, motive fs := by
  have main : ∀ (m : Nat) (fs : JsObj), sizeOf fs ≤ m → motive fs := by
    intro m
    induction m using Nat.strong_induction_on with
    | _ m ih =>
      intro fs hsz
      cases fs with
      | nil => exact h0
      | cons k v rest =>
        refine h1 k v rest (ih (sizeOf rest) ?_ rest (Nat.le_refl _))
        simp only [JsObj.cons.sizeOf_spec] at hsz
        have hx : 0 < sizeOf v := by
          cases v <;> simp
        omega
  intro fs
  exact main (sizeOf fs) fs (Nat.le_refl _)

/-- JavaScript truthiness: `undefined`, `null`, `false`, `0`, `""` are
falsy; every object and array (even empty) is truthy. -/
def truthy : JsValue → Bool
  | .undef => false
  | .null => false
  | .bool b => b
  | .num n => n != 0
  | .str s => s != ""
  | .arr _ => true
  | .obj _ => true

/-- Property access `v[k]` on a base already checked truthy: on an
object, the field's value (or `undefined` when absent); on any other
truthy value, `undefined`.  (In JavaScript a property read throws a
`TypeError` when the base is `null` or `undefined`; every read in the
source is guarded by a truthiness check except the `raw.ui_elements`
read of `getUiTree`, which `uiRawOf` therefore models as fallible.) -/
def getField : JsValue → String → JsValue
  | .obj fields, k =>
    match fields.find? k with
    | some v => v
    | none => .undef
  | _, _ => JsValue.undef

/-- JavaScript `a || b`: `a` when truthy, else `b`. -/
def jsOr (a b : JsValue) : JsValue := if truthy a then a else b

/-- Whitespace stripped by `trim`. -/
def isWsChar (c : Char) : Bool := c = ' ' ∨ c = '\n' ∨ c = '\t' ∨ c = '\r'

/-- `String.trim` (structural implementation over the character
list). -/
def jsTrim (s : String) : String :=
  String.mk (((s.toList.dropWhile isWsChar).reverse.dropWhile isWsChar).reverse)

/-- `toLowerCase()`. -/
def toLowerStr (s : String) : String := String.mk (s.toList.map Char.toLower)

def startsWithChars : List Char → List Char → Bool
  | _, [] => true
  | [], _ :: _ => false
  | c :: cs, p :: ps => c = p && startsWithChars cs ps

/-- Substring containment over character lists. -/
def containsSub (hay pat : List Char) : Bool :=
  match hay with
  | [] => pat.isEmpty
  | _ :: rest => startsWithChars hay pat || containsSub rest pat

/-- Parse a canonical decimal natural. -/
def decStrToNat? (s : String) : Option Nat :=
  match s.toList with
  | [] => none
  | cs =>
    if cs.all Char.isDigit then
      some (cs.foldl (fun a c => a * 10 + (c.toNat - 48)) 0)
    else none

mutual

/-- JavaScript string coercion as performed by template literals:
`${v}`. Arrays join their coerced elements with `","`. -/
def jsDisplay : JsValue → String
  | .undef => "undefined"
  | .null => "null"
  | .bool b => if b then "true" else "false"
  | .num n => toString n
  | .str s => s
  | .arr xs => jsDisplayArr xs
  | .obj _ => "[object Object]"

def jsDisplayArr : JsArr → String
  | .nil => ""
  | .cons x .nil => jsDisplay x
  | .cons x (.cons y ys) => jsDisplay x ++ "," ++ jsDisplayArr (.cons y ys)

end

/-- `v || defaultString` followed by string coercion — used for
`action.reasoning || ""` and similar defaults. -/
def displayOr (v : JsValue) (d : String) : String :=
  if truthy v then jsDisplay v else d

-- ─── UI Tree Compression ───

/-- Parsed element bounds with precomputed centre, mirroring the
record built by `parseBounds`. -/
structure Bounds where
  cx : Nat
  cy : Nat
  left : Nat
  top : Nat
  right : Nat
  bottom : Nat
deriving Repr, DecidableEq

/-- One kept node of the compressed accessibility tree (`UiElement`). -/
structure UiElement where
  index : Nat
  cls : String
  text : String
  bounds : Bounds
  clickable : Bool
  editable : Bool
  scrollable : Bool
  checked : Option Bool
deriving Repr, DecidableEq

/-- Parse one-or-more decimal digits at the head of the character
list, returning the value and the rest. -/
def parseDigits : List Char → Option (Nat × List Char)
  | c :: cs =>
    if c.isDigit then
      let rec go (acc : Nat) : List Char → Nat × List Char
        | d :: ds => if d.isDigit then go (acc * 10 + (d.toNat - 48)) ds else (acc, d :: ds)
        | [] => (acc, [])
      some (go (c.toNat - 48) cs)
    else none
  | [] => none

/-- Try to match `[d+,d+][d+,d+]` exactly at the head of the list. -/
def matchBoundsAt (cs : List Char) : Option (Nat × Nat × Nat × Nat) :=
  match cs with
  | '[' :: rest =>
    match parseDigits rest with
    | some (l, ',' :: r1) =>
      match parseDigits r1 with
      | some (t, ']' :: '[' :: r2) =>
        match parseDigits r2 with
        | some (r, ',' :: r3) =>
          match parseDigits r3 with
          | some (b, ']' :: _) => some (l, t, r, b)
          | _ => none
        | _ => none
      | _ => none
    | _ => none
  | _ => none

/-- Leftmost match of the regex `\[(\d+),(\d+)\]\[(\d+),(\d+)\]`. -/
def findBoundsMatch : List Char → Option (Nat × Nat × Nat × Nat)
  | [] => none
  | c :: cs =>
    match matchBoundsAt (c :: cs) with
    | some q => some q
    | none => findBoundsMatch cs

/-- `parseBounds`: extract `[l,t][r,b]` from the bounds string, reject
zero- or negative-area rectangles, and compute the (half-up rounded)
centre: `Math.round((l+r)/2) = (l+r+1)/2` on naturals. -/
def parseBounds (boundsStr : String) : Option Bounds :=
  match findBoundsMatch boundsStr.toList with
  | none => none
  | some (l, t, r, b) =>
    if r ≤ l ∨ b ≤ t then none
    else some ⟨(l + r + 1) / 2, (t + b + 1) / 2, l, t, r, b⟩

/-- `shortenClassName`: last dot-separated segment, `"View"` for the
empty string. -/
def shortenClassName (cls : String) : String :=
  if cls = "" then "View"
  else String.mk ((cls.toList.reverse.takeWhile (fun c => !(c = '.'))).reverse)

/-- Substring containment, used for `cls.toLowerCase().includes("edittext")`. -/
def strIncludes (s pat : String) : Bool :=
  containsSub s.toList pat.toList

/-- The `children` of a node: `node.children || node.nodes || []`,
kept only when the result is an array (`Array.isArray` check). -/
def childrenOf (node : JsValue) : JsArr :=
  match jsOr (getField node "children") (getField node "nodes") with
  | .arr xs => xs
  | _ => .nil

theorem find_sizeOf_lt : ∀ (fs : JsObj) (k : String) (v : JsValue),
    fs.find? k = some v → sizeOf v < sizeOf fs := by
  intro fs
  induction fs using JsObj.indObj with
  | h0 => intro k v h; cases h
  | h1 k0 v0 rest ih =>
    intro k v h
    unfold JsObj.find? at h
    by_cases he : k0 = k
    · rw [if_pos he] at h
      injection h with h2
      subst h2
      simp only [JsObj.cons.sizeOf_spec]
      omega
    · rw [if_neg he] at h
      have := ih k v h
      simp only [JsObj.cons.sizeOf_spec]
      omega

theorem getField_undef_or_sizeOf_lt (v : JsValue) (k : String) :
    getField v k = .undef ∨ sizeOf (getField v k) < sizeOf v := by
  cases v with
  | obj fields =>
    simp only [getField]
    cases hf : fields.find? k with
    | none => exact Or.inl rfl
    | some w =>
      right
      have h1 : sizeOf w < sizeOf fields := find_sizeOf_lt fields k w hf
      simp only [JsValue.obj.sizeOf_spec]
      omega
  | undef => exact Or.inl rfl
  | null => exact Or.inl rfl
  | bool b => exact Or.inl rfl
  | num n => exact Or.inl rfl
  | str s => exact Or.inl rfl
  | arr xs => exact Or.inl rfl

theorem childrenOf_sizeOf_lt (node : JsValue) (c : JsValue) (cs : JsArr)
    (h : childrenOf node = .cons c cs) : sizeOf (JsArr.cons c cs) < sizeOf node := by
  have harr : ∀ xs, (JsValue.arr xs = getField node "children"
      ∨ JsValue.arr xs = getField node "nodes") →
      sizeOf (JsValue.arr xs) < sizeOf node := by
    intro xs hor
    rcases hor with heq | heq
    · rcases getField_undef_or_sizeOf_lt node "children" with h0 | h0
      · rw [h0] at heq; exact absurd heq (by simp)
      · rw [← heq] at h0; exact h0
    · rcases getField_undef_or_sizeOf_lt node "nodes" with h0 | h0
      · rw [h0] at heq; exact absurd heq (by simp)
      · rw [← heq] at h0; exact h0
  have hg : jsOr (getField node "children") (getField node "nodes") = getField node "children"
      ∨ jsOr (getField node "children") (getField node "nodes") = getField node "nodes" := by
    unfold jsOr
    by_cases ht : truthy (getField node "children") = true
    · left; rw [if_pos ht]
    · right; rw [if_neg ht]
  unfold childrenOf at h
  revert h
  cases hj : jsOr (getField node "children") (getField node "nodes") with
  | arr xs =>
    intro h
    have hlt : sizeOf (JsValue.arr xs) < sizeOf node := by
      apply harr
      rw [← hj]
      exact hg
    have hxs : xs = .cons c cs := h
    subst hxs
    simp only [JsValue.arr.sizeOf_spec] at hlt
    omega
  | undef => intro h; cases h
  | null => intro h; cases h
  | bool b => intro h; cases h
  | num n => intro h; cases h
  | str s => intro h; cases h
  | obj fs => intro h; cases h

/-- Coerce a JavaScript value to the string the code would use it as;
a truthy non-string value makes the method call (`.trim()`,
`.toLowerCase()`, `.match(...)`) throw a `TypeError`. -/
def asStringMethodTarget (v : JsValue) (method : String) : Except String String :=
  match v with
  | .str s => .ok s
  | _ => .error ("TypeError: " ++ method ++ " is not a function")

mutual

/-- The recursive `walk` of `compressUiTree`: examine one node, push a
`UiElement` when it is kept, then recurse into its children.  `acc` is
the elements array built so far (indices are its length at push time).
A thrown `TypeError` surfaces as `.error`. -/
def walk (node : JsValue) (acc : List UiElement) : Except String (List UiElement) :=
  if truthy node = false then .ok acc
  else
    let textV := jsOr (jsOr (jsOr (getField node "text") (getField node "content-desc"))
      (getField node "contentDescription")) (.str "")
    let clsV := jsOr (jsOr (getField node "class") (getField node "className")) (.str "")
    let clickV := getField node "clickable"
    let clickable := clickV == .bool true || clickV == .str "true"
    -- `cls.toLowerCase()` runs unconditionally while computing `editable`
    match asStringMethodTarget clsV "cls.toLowerCase" with
    | .error e => .error e
    | .ok cls =>
      let editV := getField node "editable"
      let editable := strIncludes (toLowerStr cls) "edittext"
        || editV == .bool true || editV == .str "true"
      let scrollV := getField node "scrollable"
      let scrollable := scrollV == .bool true || scrollV == .str "true"
      let checkedV := getField node "checked"
      let visible := getField node "visible-to-user" != .bool false
        && getField node "visible-to-user" != .str "false"
      let enabled := getField node "enabled" != .bool false
        && getField node "enabled" != .str "false"
      let boundsV := jsOr (jsOr (getField node "bounds") (getField node "boundsInScreen"))
        (.str "")
      let pushed : Except String (List UiElement) :=
        if visible && enabled then
          match asStringMethodTarget textV "text.trim" with
          | .error e => .error e
          | .ok text =>
            let hasText := decide (0 < (jsTrim text).length)
            let isInteractive := clickable || editable || scrollable
            if hasText || isInteractive then
              match asStringMethodTarget boundsV "boundsStr.match" with
              | .error e => .error e
              | .ok boundsStr =>
                match parseBounds boundsStr with
                | some bounds =>
                  let el : UiElement :=
                    { index := acc.length, cls := shortenClassName cls,
                      text := ((jsTrim text).take 80),
                      bounds := bounds, clickable := clickable,
                      editable := editable, scrollable := scrollable,
                      checked := if checkedV == .bool true || checkedV == .str "true"
                        then some true else none }
                  .ok (acc ++ [el])
                | none => .ok acc
            else .ok acc
        else .ok acc
      match pushed with
      | .error e => .error e
      | .ok acc' =>
        match h : childrenOf node with
        | .nil => .ok acc'
        | .cons c cs => walkList (.cons c cs) acc'
termination_by sizeOf node
decreasing_by
  exact childrenOf_sizeOf_lt node c cs h

/-- Sequential walk over a list of child nodes. -/
def walkList (nodes : JsArr) (acc : List UiElement) : Except String (List UiElement) :=
  match nodes with
  | .nil => .ok acc
  | .cons n rest =>
    match walk n acc with
    | .error e => .error e
    | .ok acc' => walkList rest acc'
termination_by sizeOf nodes

end

/-- Render one element line:
`[index] Class "text" [cx,cy] flag,flag`. -/
def renderElement (el : UiElement) : String :=
  let flags : List String :=
    (if el.clickable then ["clickable"] else [])
      ++ (if el.editable then ["editable"] else [])
      ++ (if el.scrollable then ["scrollable"] else [])
      ++ (match el.checked with
          | some c => [if c then "checked" else "unchecked"]
          | none => [])
  let flagStr := if flags.length > 0 then " " ++ String.intercalate "," flags else ""
  let label := if el.text != "" then " \x22" ++ el.text ++ "\x22" else ""
  "[" ++ toString el.index ++ "] " ++ el.cls ++ label
    ++ " [" ++ toString el.bounds.cx ++ "," ++ toString el.bounds.cy ++ "]" ++ flagStr

/-- `compressUiRoots`: the top-level dispatch of `compressUiTree` —
walk an array of roots, a single object root, or nothing. -/
def compressUiRoots (raw : JsValue) : Except String (List UiElement) :=
  match raw with
  | .arr roots => walkList roots []
  | .obj fields => walk (.obj fields) []
  | _ => .ok []

/-- `compressUiTree`: compressed `{text, elements}` result (or the
propagated `TypeError`). -/
def compressUiTree (raw : JsValue) : Except String (String × List UiElement) :=
  match compressUiRoots raw with
  | .error e => .error e
  | .ok elements => .ok (String.intercalate "\n" (elements.map renderElement), elements)

-- ─── JSON parsing / serialisation (JSON.parse / JSON.stringify) ───

/-- Skip JSON whitespace. -/
def skipWs : List Char → List Char
  | c :: cs => if c = ' ' ∨ c = '\n' ∨ c = '\t' ∨ c = '\r' then skipWs cs else c :: cs
  | [] => []

/-- Decode one escape character of a JSON string literal. -/
def escChar (e : Char) : Option Char :=
  if e = '"' then some '"'
  else if e = '\\' then some '\\'
  else if e = '/' then some '/'
  else if e = 'n' then some '\n'
  else if e = 't' then some '\t'
  else if e = 'r' then some '\r'
  else none

/-- Parse the body of a JSON string literal (the opening quote already
consumed), accumulating decoded characters. -/
def parseJsonStringAux : List Char → List Char → Option (String × List Char)
  | acc, '"' :: cs => some (String.mk acc.reverse, cs)
  | acc, '\\' :: e :: cs =>
    match escChar e with
    | some ch => parseJsonStringAux (ch :: acc) cs
    | none => none
  | _, '\\' :: [] => none
  | acc, c :: cs => parseJsonStringAux (c :: acc) cs
  | _, [] => none

mutual

/-- Fuel-indexed recursive-descent JSON value parser (integral
numbers; no `\u` escapes — the repository's action objects use
neither). -/
def parseJsonValue : Nat → List Char → Option (JsValue × List Char)
  | 0, _ => none
  | fuel + 1, cs =>
    match skipWs cs with
    | '{' :: rest =>
      match skipWs rest with
      | '}' :: rest2 => some (.obj .nil, rest2)
      | rest2 => (parseJsonMembers fuel rest2).map (fun (fs, r) => (.obj fs, r))
    | '[' :: rest =>
      match skipWs rest with
      | ']' :: rest2 => some (.arr .nil, rest2)
      | rest2 => (parseJsonElems fuel rest2).map (fun (xs, r) => (.arr xs, r))
    | '"' :: rest => (parseJsonStringAux [] rest).map (fun (s, r) => (.str s, r))
    | 't' :: 'r' :: 'u' :: 'e' :: rest => some (.bool true, rest)
    | 'f' :: 'a' :: 'l' :: 's' :: 'e' :: rest => some (.bool false, rest)
    | 'n' :: 'u' :: 'l' :: 'l' :: rest => some (.null, rest)
    | '-' :: rest => (parseDigits rest).map (fun (n, r) => (.num (-(n : Int)), r))
    | rest => (parseDigits rest).map (fun (n, r) => (.num (n : Int), r))

/-- Parse `"key": value` members separated by commas, up to the
closing `\x7d`. -/
def parseJsonMembers : Nat → List Char → Option (JsObj × List Char)
  | 0, _ => none
  | fuel + 1, cs =>
    match skipWs cs with
    | '"' :: rest =>
      match parseJsonStringAux [] rest with
      | some (k, rest2) =>
        match skipWs rest2 with
        | ':' :: rest3 =>
          match parseJsonValue fuel rest3 with
          | some (v, rest4) =>
            match skipWs rest4 with
            | ',' :: rest5 =>
              (parseJsonMembers fuel rest5).map (fun (fs, r) => (.cons k v fs, r))
            | '}' :: rest5 => some (.cons k v .nil, rest5)
            | _ => none
          | none => none
        | _ => none
      | none => none
    | _ => none

/-- Parse array elements separated by commas, up to the closing `]`. -/
def parseJsonElems : Nat → List Char → Option (JsArr × List Char)
  | 0, _ => none
  | fuel + 1, cs =>
    match parseJsonValue fuel cs with
    | some (v, rest) =>
      match skipWs rest with
      | ',' :: rest2 => (parseJsonElems fuel rest2).map (fun (xs, r) => (.cons v xs, r))
      | ']' :: rest2 => some (.cons v .nil, rest2)
      | _ => none
    | none => none

end

/-- `JSON.parse`: the whole string must be one JSON value (possibly
surrounded by whitespace). -/
def jsonParse (s : String) : Option JsValue :=
  match parseJsonValue (s.length + 1) s.toList with
  | some (v, rest) => if skipWs rest = [] then some v else none
  | none => none

/-- Escape a string for JSON output. -/
def jsonQuoteAux : List Char → List Char
  | [] => []
  | c :: cs =>
    if c = '"' then '\\' :: '"' :: jsonQuoteAux cs
    else if c = '\\' then '\\' :: '\\' :: jsonQuoteAux cs
    else if c = '\n' then '\\' :: 'n' :: jsonQuoteAux cs
    else if c = '\t' then '\\' :: 't' :: jsonQuoteAux cs
    else if c = '\r' then '\\' :: 'r' :: jsonQuoteAux cs
    else c :: jsonQuoteAux cs

def jsonQuote (s : String) : String :=
  "\"" ++ String.mk (jsonQuoteAux s.toList) ++ "\""

mutual

/-- `JSON.stringify`: `undefined` produces no output (object fields
holding it are omitted); inside arrays it serialises as `null`. -/
def jsonStringify : JsValue → Option String
  | .undef => none
  | .null => some "null"
  | .bool b => some (if b then "true" else "false")
  | .num n => some (toString n)
  | .str s => some (jsonQuote s)
  | .arr xs => some ("[" ++ String.intercalate "," (jsonStringifyItems xs) ++ "]")
  | .obj fs => some ("\x7b" ++ String.intercalate "," (jsonStringifyEntries fs) ++ "\x7d")

/-- Array items, `undefined` rendered as `null`. -/
def jsonStringifyItems : JsArr → List String
  | .nil => []
  | .cons x xs => ((jsonStringify x).getD "null") :: jsonStringifyItems xs

/-- Object entries, fields holding `undefined` omitted. -/
def jsonStringifyEntries : JsObj → List String
  | .nil => []
  | .cons k v fs =>
    match jsonStringify v with
    | some sv => (jsonQuote k ++ ":" ++ sv) :: jsonStringifyEntries fs
    | none => jsonStringifyEntries fs

end

-- ─── Decision Oracle adapter ───

/-- The decoded action record.  The unchecked TypeScript cast
`JSON.parse(...) as AutoAction` performs no validation, so every field
is simply whatever dynamic value the parsed object carried
(`undefined` when absent). -/
structure AutoAction where
  action : JsValue := .undef
  element : JsValue := .undef
  direction : JsValue := .undef
  text : JsValue := .undef
  button : JsValue := .undef
  package_name : JsValue := .undef
  summary : JsValue := .undef
  reasoning : JsValue := .undef
deriving Repr, BEq

def AutoAction.ofJson (v : JsValue) : AutoAction :=
  { action := getField v "action", element := getField v "element",
    direction := getField v "direction", text := getField v "text",
    button := getField v "button", package_name := getField v "package_name",
    summary := getField v "summary", reasoning := getField v "reasoning" }

/-- Case-insensitive prefix test over characters. -/
def lowerStartsWith : List Char → List Char → Bool
  | _, [] => true
  | [], _ :: _ => false
  | c :: cs, p :: ps => (c.toLower == p) && lowerStartsWith cs ps

/-- Find a (case-insensitive) `</think>` and return the suffix after
it. -/
def dropThroughClose : List Char → Option (List Char)
  | [] => none
  | c :: cs =>
    if lowerStartsWith (c :: cs) "</think>".toList then some ((c :: cs).drop 8)
    else dropThroughClose cs

theorem lowerStartsWith_length : ∀ (cs p : List Char),
    lowerStartsWith cs p = true → p.length ≤ cs.length := by
  intro cs p
  induction p generalizing cs with
  | nil => intro _; simp
  | cons x xs ihp =>
    intro h
    cases cs with
    | nil => simp [lowerStartsWith] at h
    | cons y ys =>
      simp only [lowerStartsWith, Bool.and_eq_true] at h
      have := ihp ys h.2
      simp only [List.length_cons]
      omega

theorem dropThroughClose_length_lt : ∀ (cs r : List Char),
    dropThroughClose cs = some r → r.length < cs.length := by
  intro cs
  induction cs with
  | nil => intro r h; cases h
  | cons c cs ih =>
    intro r h
    unfold dropThroughClose at h
    by_cases hs : lowerStartsWith (c :: cs) "</think>".toList = true
    · rw [if_pos hs] at h
      injection h with h2
      subst h2
      have hlen : "</think>".toList.length ≤ (c :: cs).length :=
        lowerStartsWith_length _ _ hs
      have h8 : "</think>".toList.length = 8 := rfl
      rw [h8] at hlen
      simp only [List.length_drop]
      omega
    · rw [if_neg hs] at h
      have := ih r h
      simp only [List.length_cons]
      omega

/-- `cleanLlmThinking`'s regex replace:
`text.replace(/<think>[\s\S]*?<\/think>/gi, "")` — left-to-right,
non-greedy, case-insensitive removal of think blocks.  Each step
consumes at least one character (`dropThroughClose_length_lt`), so
fuel equal to the input length always suffices and the fuel-exhausted
branch is unreachable. -/
def stripThinkF : Nat → List Char → List Char
  | 0, cs => cs
  | fuel + 1, cs =>
    match cs with
    | [] => []
    | c :: rest =>
      if lowerStartsWith (c :: rest) "<think>".toList then
        match dropThroughClose ((c :: rest).drop 7) with
        | some tail => stripThinkF fuel tail
        | none => c :: stripThinkF fuel rest
      else c :: stripThinkF fuel rest

def stripThink (cs : List Char) : List Char := stripThinkF cs.length cs

/-- `cleanLlmThinking`: strip `<think>…</think>` blocks, then trim. -/
def cleanLlmThinking (text : String) : String :=
  jsTrim (String.mk (stripThink text.toList))

/-- The regex match `text.match(/\x7b[\s\S]*\x7d/)`: greedy, so the
match (when any exists) runs from the first `\x7b` to the last `\x7d`
of the whole text. -/
def jsonSlice (text : String) : Option String :=
  let cs := text.toList
  match cs.findIdx? (fun c => c = '{'), cs.reverse.findIdx? (fun c => c = '}') with
  | some i, some jr =>
    let j := cs.length - 1 - jr
    if i < j then some (String.mk ((cs.drop i).take (j - i + 1))) else none
  | _, _ => none

/-- `parseAction`: locate the brace-delimited slice, `JSON.parse` it,
and cast; a missing slice or a parse failure throws. -/
def parseAction (text : String) : Except String AutoAction :=
  match jsonSlice text with
  | none => .error ("No JSON found in LLM response: " ++ text.take 200)
  | some s =>
    match jsonParse s with
    | some v => .ok (AutoAction.ofJson v)
    | none => .error ("Invalid JSON action: " ++ s.take 200)

/-- Length of the shortest brace-balanced prefix (starting at an
opening brace). -/
def balancedObjLen : List Char → Nat → Nat → Option Nat
  | [], _, _ => none
  | c :: rest, depth, acc =>
    if c = '{' then balancedObjLen rest (depth + 1) (acc + 1)
    else if c = '}' then
      if depth = 1 then some (acc + 1) else balancedObjLen rest (depth - 1) (acc + 1)
    else balancedObjLen rest depth (acc + 1)

def firstBalancedAux : List Char → Option (List Char)
  | [] => none
  | c :: cs =>
    if c = '{' then
      match balancedObjLen (c :: cs) 0 0 with
      | some n => some ((c :: cs).take n)
      | none => firstBalancedAux cs
    else firstBalancedAux cs

/-- Modelled from the spec: "Locate the first balanced-looking JSON
object in the remaining text" — the earliest substring that starts at
an opening brace and is brace-balanced.  (The source has no such
function; its regex is `jsonSlice`.) -/
def firstBalancedJson (text : String) : Option String :=
  (firstBalancedAux text.toList).map String.mk

-- ─── Action Executor ───

/-- Parameter payloads of Command Channel calls. -/
inductive Params where
  | empty : Params
  | xy : Nat → Nat → Params
  | field1 : String → JsValue → Params
deriving Repr, BEq

structure ChannelCall where
  cmd : String
  params : Params
deriving Repr, BEq

/-- Outcome of one Command Channel round trip. -/
structure CommandResponse where
  status : String
  response : Option JsValue := none
  error : Option String := none
deriving Repr, BEq

/-- What one `executeAction` call does: answer locally, or issue
exactly one Command Channel call. -/
inductive ExecStep where
  | localResp : CommandResponse → ExecStep
  | channel : ChannelCall → ExecStep
deriving Repr, BEq

/-- JavaScript array indexing `elements[action.element ?? -1]`:
nullish index becomes `-1` (never found); a number finds the element
when it is an in-range index; a string finds it only when it is the
canonical decimal form of an in-range index. -/
def jsIndex (elements : List UiElement) (v : JsValue) : Option UiElement :=
  match v with
  | .undef => none
  | .null => none
  | .num n => if n < 0 then none else elements.get? n.toNat
  | .str s =>
    match decStrToNat? s with
    | some k => if toString k = s then elements.get? k else none
    | none => none
  | _ => none

/-- The `switch` of `executeAction`, as a pure decision of what to do
(the channel interaction itself is supplied by the caller). -/
def executeActionPlan (action : AutoAction) (elements : List UiElement) : ExecStep :=
  if action.action == .str "tap" then
    match jsIndex elements action.element with
    | some el => .channel ⟨"tap", .xy el.bounds.cx el.bounds.cy⟩
    | none => .localResp ⟨"failed", none,
        some ("Element [" ++ jsDisplay action.element ++ "] not found")⟩
  else if action.action == .str "double_tap" then
    match jsIndex elements action.element with
    | some el => .channel ⟨"double_tap", .xy el.bounds.cx el.bounds.cy⟩
    | none => .localResp ⟨"failed", none,
        some ("Element [" ++ jsDisplay action.element ++ "] not found")⟩
  else if action.action == .str "long_press" then
    match jsIndex elements action.element with
    | some el => .channel ⟨"long_press", .xy el.bounds.cx el.bounds.cy⟩
    | none => .localResp ⟨"failed", none,
        some ("Element [" ++ jsDisplay action.element ++ "] not found")⟩
  else if action.action == .str "swipe" then
    .channel ⟨"swipe", .field1 "direction" (jsOr action.direction (.str "up"))⟩
  else if action.action == .str "type" then
    .channel ⟨"send_text", .field1 "text" (jsOr action.text (.str ""))⟩
  else if action.action == .str "press_button" then
    .channel ⟨"press_button", .field1 "button" (jsOr action.button (.str "home"))⟩
  else if action.action == .str "launch_app" then
    .channel ⟨"launch_app", .field1 "package_name" (jsOr action.package_name (.str ""))⟩
  else if action.action == .str "wait" then
    .localResp ⟨"completed", some (.str "Waited for UI to settle"), none⟩
  else if action.action == .str "done" then
    .localResp ⟨"completed", some (jsOr action.summary (.str "Task complete")), none⟩
  else
    .localResp ⟨"failed", none, some ("Unknown action: " ++ jsDisplay action.action)⟩

/-- `executeAction` with an explicit channel: returns the list of
Command Channel calls issued (at most one) and the response or thrown
error. -/
def executeAction (send : ChannelCall → Except String CommandResponse)
    (action : AutoAction) (elements : List UiElement) :
    List ChannelCall × Except String CommandResponse :=
  match executeActionPlan action elements with
  | .localResp r => ([], .ok r)
  | .channel c => ([c], send c)

-- ─── Automation Loop ───

def MAX_STEPS : Nat := 20
def MAX_CONSECUTIVE_SAME_ACTION : Nat := 3
def MAX_EMPTY_UI_RETRIES : Nat := 3

/-- A compressed snapshot `{text, elements}`. -/
structure Ui where
  text : String
  elements : List UiElement
deriving Repr, BEq

/-- One `StepLog` entry.  `action`, `reasoning` and `result` hold the
dynamic values the code stores (stringified only when the report is
rendered). -/
structure StepLog where
  step : Nat
  action : JsValue
  reasoning : JsValue
  result : JsValue
deriving Repr, BEq

/-- One sliding-history entry pushed after an executed action. -/
structure HistEntry where
  action : JsValue
  reasoning : JsValue
deriving Repr, BEq

/-- The loop's mutable variables (`log`, `actionHistory`,
`lastActionKey`, `sameActionCount`, `emptyUiCount`, `cachedUi`). -/
structure LoopState where
  log : List StepLog
  actionHistory : List HistEntry
  lastActionKey : String
  sameActionCount : Nat
  emptyUiCount : Nat
  cachedUi : Option Ui
deriving Repr, BEq

/-- The environment of one run: what the `get_ui_elements` channel
round trip yields at each step (a structured `CommandResponse`, or a
thrown error), what the Decision Oracle call yields at each step, and
what the Command Channel returns (or throws) for an action command
issued at a step.  This models every possible sequence of oracle
decisions and channel responses, exceptions included. -/
structure Env where
  observe : Nat → Except String CommandResponse
  decide : Nat → Except String AutoAction
  chan : Nat → ChannelCall → Except String CommandResponse

/-- The payload unwrapping of `getUiTree`: parse a string payload as
JSON when possible, then descend into `ui_elements` / `elements` /
a JSON-parsable string `message`.  The first property read,
`raw.ui_elements`, is unguarded in the source: a truthy string
payload that JSON-parses to `null` (`"null"`) makes it throw a
`TypeError`.  (The later reads cannot throw: when `ui_elements` is
truthy `raw` is reassigned to a truthy value, and otherwise `raw` is
the non-`null` value that survived the first read.) -/
def uiRawOf (v0 : JsValue) : Except String JsValue :=
  let raw := match v0 with
    | .str s =>
      match jsonParse s with
      | some j => j
      | none => .str s
    | v => v
  match raw with
  | .null => .error "TypeError: Cannot read properties of null (reading 'ui_elements')"
  | .undef => .error "TypeError: Cannot read properties of undefined (reading 'ui_elements')"
  | raw =>
    let raw := if truthy (getField raw "ui_elements") then getField raw "ui_elements" else raw
    let raw := if truthy (getField raw "elements") then getField raw "elements" else raw
    let raw := match getField raw "message" with
      | .str s =>
        if s = "" then raw
        else
          match jsonParse s with
          | some j => j
          | none => raw
      | _ => raw
    .ok raw

/-- `getUiTree` applied to the channel's structured response: a
non-`completed` status or falsy payload reads as an unreadable (empty)
screen; otherwise the payload is unwrapped and compressed — and a
`TypeError` thrown by the unwrapping or by the compressor
propagates. -/
def getUiTree (resp : CommandResponse) : Except String Ui :=
  let unreadable : Ui := ⟨"[Screen could not be read]", []⟩
  if resp.status = "completed" then
    match resp.response with
    | some v =>
      if truthy v then
        match uiRawOf v with
        | .error m => .error m
        | .ok raw =>
          match compressUiTree raw with
          | .error m => .error m
          | .ok (t, els) => .ok ⟨t, els⟩
      else .ok unreadable
    | none => .ok unreadable
  else .ok unreadable

/-- One full observation: the `get_ui_elements` round trip (which may
throw) followed by `getUiTree`. -/
def observedUi (env : Env) (step : Nat) : Except String Ui :=
  match env.observe step with
  | .error m => .error m
  | .ok resp => getUiTree resp

/-- Externally visible calls made by the loop, for stating which
collaborators are (not) invoked at a given step. -/
inductive Event where
  | observeCall : Nat → Event
  | decideCall : Nat → Event
  | chanCall : Nat → ChannelCall → Event
deriving Repr, BEq

/-- Outcome of one `for` iteration: continue with a new state, break
out of the loop with the final log, or propagate an exception. -/
inductive IterOut where
  | next : LoopState → IterOut
  | halt : List StepLog → IterOut
  | fail : String → IterOut
deriving Repr, BEq

/-- The action signature used for stall detection:
`JSON.stringify({action, element, direction, text})`. -/
def actionKeyOf (a : AutoAction) : String :=
  (jsonStringify (.obj (.cons "action" a.action (.cons "element" a.element
    (.cons "direction" a.direction (.cons "text" a.text .nil)))))).getD ""

/-- `result.response && typeof result.response === "object" &&
result.response.ui_elements` — the inline UI tree of an action
response, if any. -/
def isObjectType : JsValue → Bool
  | .obj _ => true
  | .arr _ => true
  | .null => true
  | _ => false

def inlineUiOf (r : CommandResponse) : Option JsValue :=
  match r.response with
  | some v =>
    if truthy v && isObjectType v && truthy (getField v "ui_elements") then
      some (getField v "ui_elements")
    else none
  | none => none

/-- Steps 5 (log/history bookkeeping) and the inline-UI caching after
an action's structured response. -/
def actFinish (step : Nat) (s : LoopState) (action : AutoAction)
    (result : CommandResponse) (evs : List Event) : IterOut × List Event :=
  let resultStr := if result.status = "completed" then "ok"
    else "failed: " ++ (match result.error with
      | some e => if e = "" then "unknown" else e
      | none => "unknown")
  let s := { s with
    log := s.log ++ [⟨step, action.action, jsOr action.reasoning (.str ""), .str resultStr⟩],
    actionHistory := s.actionHistory ++ [⟨action.action, jsOr action.reasoning (.str "")⟩] }
  match inlineUiOf result with
  | some v =>
    match compressUiTree v with
    | .error m => (.fail m, evs)
    | .ok (t, els) => (.next { s with cachedUi := some ⟨t, els⟩ }, evs)
  | none => (.next s, evs)

/-- Step 5 (Act): run the executor inside its `try`/`catch`; a thrown
channel error is caught, logged and the loop continues. -/
def actPhase (env : Env) (step : Nat) (s : LoopState) (action : AutoAction)
    (ui : Ui) (evs : List Event) : IterOut × List Event :=
  match executeActionPlan action ui.elements with
  | .localResp result => actFinish step s action result evs
  | .channel c =>
    let evs := evs ++ [Event.chanCall step c]
    match env.chan step c with
    | .error m =>
      (.next { s with
        log := s.log ++ [⟨step, action.action, jsOr action.reasoning (.str ""),
          .str ("error: " ++ m)⟩],
        actionHistory := s.actionHistory ++ [⟨action.action, .str ("FAILED: " ++ m)⟩] },
        evs)
    | .ok result => actFinish step s action result evs

/-- One iteration of the `for` loop of `automationLoop`: observe
(cached snapshot or a fresh fetch), empty-screen bookkeeping, decide,
done check, stall detection, act. -/
def iterate (env : Env) (step : Nat) (s : LoopState) : IterOut × List Event :=
  let obs : Except String Ui × List Event :=
    match s.cachedUi with
    | some u => (.ok u, [])
    | none => (observedUi env step, [Event.observeCall step])
  match obs with
  | (.error m, evs) => (.fail m, evs)
  | (.ok ui, evs) =>
    let s := { s with cachedUi := none }
    if ui.elements.length = 0 then
      let s := { s with emptyUiCount := s.emptyUiCount + 1 }
      if MAX_EMPTY_UI_RETRIES ≤ s.emptyUiCount then
        (.halt (s.log ++ [⟨step, .str "abort", .str "Screen unreadable after retries",
          .str "failed"⟩]), evs)
      else (.next s, evs)
    else
      let s := { s with emptyUiCount := 0 }
      let evs := evs ++ [Event.decideCall step]
      match env.decide step with
      | .error m =>
        (.next { s with log := s.log ++ [⟨step, .str "llm_error", .str m, .str "failed"⟩] },
          evs)
      | .ok action =>
        if action.action == .str "done" then
          (.halt (s.log ++ [⟨step, .str "done", jsOr action.reasoning (.str ""),
            jsOr action.summary (.str "completed")⟩]), evs)
        else
          let actionKey := actionKeyOf action
          if actionKey = s.lastActionKey then
            let c := s.sameActionCount + 1
            if MAX_CONSECUTIVE_SAME_ACTION ≤ c then
              (.halt (s.log ++ [⟨step, .str "abort",
                .str "Same action repeated 3 times — stuck", .str "failed"⟩]), evs)
            else actPhase env step { s with sameActionCount := c } action ui evs
          else
            actPhase env step
              { s with sameActionCount := 1, lastActionKey := actionKey } action ui evs

/-- The `for (let step = 0; step < MAX_STEPS; step++)` loop, with the
remaining iteration budget as `fuel`.  Returns the final log, the
events performed, and the number of iterations run — or the
propagated exception. -/
def loopAux (env : Env) : Nat → Nat → LoopState → List Event →
    Except String (List StepLog × List Event × Nat)
  | 0, step, s, evs => .ok (s.log, evs, step)
  | fuel + 1, step, s, evs =>
    match iterate env step s with
    | (.next s', e) => loopAux env fuel (step + 1) s' (evs ++ e)
    | (.halt log, e) => .ok (log, evs ++ e, step + 1)
    | (.fail m, _) => .error m

def initialState : LoopState := ⟨[], [], "", 0, 0, none⟩

def automationRun (env : Env) : Except String (List StepLog × List Event × Nat) :=
  loopAux env MAX_STEPS 0 initialState []

/-- The human-readable summary built after the loop. -/
def renderReport (goal : String) (log : List StepLog) : String :=
  let completed : Bool := match log.getLast? with
    | some e => e.action == .str "done"
    | none => false
  let steps := String.intercalate "\n" (log.map (fun l =>
    "  " ++ toString (l.step + 1) ++ ". [" ++ jsDisplay l.action ++ "] "
      ++ jsDisplay l.reasoning ++ " → " ++ jsDisplay l.result))
  "Phone task " ++ (if completed then "completed" else "stopped")
    ++ " after " ++ toString log.length ++ " steps.\n\nGoal: " ++ goal
    ++ "\n\nSteps:\n" ++ steps ++ "\n\n"
    ++ (if completed then
          "Result: " ++ (match log.getLast? with
            | some e => jsDisplay e.result
            | none => "undefined")
        else "The task did not complete successfully.")

/-- `automationLoop(goal)`: the textual report, or the exception that
escaped the loop. -/
def automationLoop (env : Env) (goal : String) : Except String String :=
  match automationRun env with
  | .ok (log, _, _) => .ok (renderReport goal log)
  | .error m => .error m

/-- The `phone_do_task` tool's `execute`: goal check, then the loop
under a `try`/`catch` that surfaces escaped exceptions as
`"Phone automation failed: <message>"`. -/
def phoneDoTask (env : Env) (goal : String) : String :=
  if goal = "" then "Error: goal is required."
  else
    match automationLoop env goal with
    | .ok report => report
    | .error m => "Phone automation failed: " ++ m

-- ─── Verification predicates and helper lemmas ───

/-- All elements of a list have a strictly positive-area rectangle. -/
def allAreaPos (els : List UiElement) : Prop :=
  ∀ el ∈ els, el.bounds.left < el.bounds.right ∧ el.bounds.top < el.bounds.bottom

theorem parseBounds_pos (s : String) (b : Bounds) (h : parseBounds s = some b) :
    b.left < b.right ∧ b.top < b.bottom := by
  unfold parseBounds at h
  split at h
  · cases h
  · rename_i l t r bo
    split at h
    · cases h
    · rename_i hc
      injection h with h2
      subst h2
      push_neg at hc
      exact ⟨hc.1, hc.2⟩

theorem walk_walkList_posArea : ∀ (m : Nat),
    (∀ node, sizeOf node ≤ m → ∀ acc out,
      walk node acc = .ok out → allAreaPos acc → allAreaPos out)
    ∧ (∀ ns : JsArr, sizeOf ns ≤ m → ∀ acc out,
      walkList ns acc = .ok out → allAreaPos acc → allAreaPos out) := by
  intro m
  induction m using Nat.strong_induction_on with
  | _ m ih =>
    constructor
    · intro node hsz acc out hw hacc
      unfold walk at hw
      split at hw
      · injection hw with h2; subst h2; exact hacc
      · simp only [] at hw
        split at hw
        · cases hw
        · split at hw
          · cases hw
          · rename_i acc' hpushed
            have haccpos : allAreaPos acc' := by
              split at hpushed
              · split at hpushed
                · cases hpushed
                · split at hpushed
                  · split at hpushed
                    · cases hpushed
                    · split at hpushed
                      · rename_i bounds hb
                        injection hpushed with h2
                        subst h2
                        intro el hel
                        rcases List.mem_append.mp hel with h | h
                        · exact hacc el h
                        · rcases List.mem_singleton.mp h with rfl
                          exact parseBounds_pos _ _ hb
                      · injection hpushed with h2; subst h2; exact hacc
                  · injection hpushed with h2; subst h2; exact hacc
              · injection hpushed with h2; subst h2; exact hacc
            split at hw
            · injection hw with h2; subst h2; exact haccpos
            · rename_i c cs hch
              have hlt := childrenOf_sizeOf_lt node c cs hch
              exact (ih (sizeOf (JsArr.cons c cs)) (by omega)).2 (JsArr.cons c cs)
                (Nat.le_refl _) acc' out hw haccpos
    · intro ns hsz acc out hw hacc
      cases ns with
      | nil =>
        unfold walkList at hw
        injection hw with h2
        subst h2
        exact hacc
      | cons n rest =>
        unfold walkList at hw
        split at hw
        · cases hw
        · rename_i acc' hwn
          have hsn : 0 < sizeOf rest := by cases rest <;> simp
          have hsr : 0 < sizeOf n := by cases n <;> simp
          simp only [JsArr.cons.sizeOf_spec] at hsz
          have hpres := (ih (sizeOf n) (by omega)).1 n (Nat.le_refl _) acc acc' hwn hacc
          exact (ih (sizeOf rest) (by omega)).2 rest (Nat.le_refl _) acc' out hw hpres

theorem walk_posArea : ∀ (node : JsValue) (acc out : List UiElement),
    walk node acc = .ok out → allAreaPos acc → allAreaPos out := by
  intro node
  exact (walk_walkList_posArea (sizeOf node)).1 node (Nat.le_refl _)

theorem walkList_posArea (ns : JsArr) :
    ∀ acc out, walkList ns acc = .ok out → allAreaPos acc → allAreaPos out :=
  (walk_walkList_posArea (sizeOf ns)).2 ns (Nat.le_refl _)

theorem compressUiTree_posArea (raw : JsValue) (res : String × List UiElement)
    (h : compressUiTree raw = .ok res) : allAreaPos res.2 := by
  unfold compressUiTree at h
  cases hr : compressUiRoots raw with
  | error e => rw [hr] at h; cases h
  | ok elements =>
    rw [hr] at h
    injection h with h2
    subst h2
    have hnil : allAreaPos [] := by intro el hel; cases hel
    unfold compressUiRoots at hr
    cases raw with
    | arr roots => exact walkList_posArea roots [] elements hr hnil
    | obj fields => exact walk_posArea (.obj fields) [] elements hr hnil
    | undef => injection hr with h3; subst h3; exact hnil
    | null => injection hr with h3; subst h3; exact hnil
    | bool b => injection hr with h3; subst h3; exact hnil
    | num n => injection hr with h3; subst h3; exact hnil
    | str s => injection hr with h3; subst h3; exact hnil

/-- A value is a string whenever it is truthy (falsy values are
harmless in a `||`-default chain; truthy non-strings make the string
method calls throw). -/
def strOrFalsy : JsValue → Bool
  | .str _ => true
  | .undef => true
  | .null => true
  | .bool b => !b
  | .num n => n == 0
  | .arr _ => false
  | .obj _ => false

/-- Field sanity of one object node: every value feeding a string
method (`text`/description, `class`, `bounds` aliases) is a string
whenever truthy. -/
def goodNode (fields : JsObj) : Bool :=
  strOrFalsy (getField (.obj fields) "text")
    && strOrFalsy (getField (.obj fields) "content-desc")
    && strOrFalsy (getField (.obj fields) "contentDescription")
    && strOrFalsy (getField (.obj fields) "class")
    && strOrFalsy (getField (.obj fields) "className")
    && strOrFalsy (getField (.obj fields) "bounds")
    && strOrFalsy (getField (.obj fields) "boundsInScreen")

mutual

/-- Every object node of the tree (recursively) has sane string
fields. -/
def good : JsValue → Bool
  | .obj fs => goodNode fs && goodFields fs
  | .arr xs => goodArr xs
  | .undef => true
  | .null => true
  | .bool _ => true
  | .num _ => true
  | .str _ => true

def goodFields : JsObj → Bool
  | .nil => true
  | .cons _ v fs => good v && goodFields fs

def goodArr : JsArr → Bool
  | .nil => true
  | .cons x xs => good x && goodArr xs

end

theorem goodFields_find : ∀ (fs : JsObj), goodFields fs = true →
    ∀ (k : String) (v : JsValue), fs.find? k = some v → good v = true := by
  intro fs
  induction fs using JsObj.indObj with
  | h0 => intro _ k v h; cases h
  | h1 k0 v0 rest ih =>
    intro hg k v h
    unfold goodFields at hg
    rw [Bool.and_eq_true] at hg
    unfold JsObj.find? at h
    by_cases he : k0 = k
    · rw [if_pos he] at h
      injection h with h2
      subst h2
      exact hg.1
    · rw [if_neg he] at h
      exact ih hg.2 k v h

theorem goodArr_head {x : JsValue} {xs : JsArr}
    (h : goodArr (.cons x xs) = true) : good x = true ∧ goodArr xs = true := by
  unfold goodArr at h
  rw [Bool.and_eq_true] at h
  exact h

theorem good_getField {v : JsValue} (h : good v = true) (k : String) :
    good (getField v k) = true := by
  cases v with
  | obj fs =>
    simp only [getField]
    cases hf : fs.find? k with
    | none => rfl
    | some w =>
      unfold good at h
      rw [Bool.and_eq_true] at h
      exact goodFields_find fs h.2 k w hf
  | undef => rfl
  | null => rfl
  | bool b => rfl
  | num n => rfl
  | str s => rfl
  | arr xs => rfl

theorem good_childrenOf {v : JsValue} (h : good v = true) :
    ∀ (c : JsValue) (cs : JsArr), childrenOf v = .cons c cs →
      good c = true ∧ goodArr cs = true := by
  intro c cs hc
  unfold childrenOf at hc
  have hg : ∀ (g : JsValue), (g = getField v "children" ∨ g = getField v "nodes") →
      good g = true := by
    intro g hor
    rcases hor with rfl | rfl
    · exact good_getField h "children"
    · exact good_getField h "nodes"
  have hj : jsOr (getField v "children") (getField v "nodes") = getField v "children"
      ∨ jsOr (getField v "children") (getField v "nodes") = getField v "nodes" := by
    unfold jsOr
    by_cases ht : truthy (getField v "children") = true
    · left; rw [if_pos ht]
    · right; rw [if_neg ht]
  revert hc
  cases hjv : jsOr (getField v "children") (getField v "nodes") with
  | arr xs =>
    intro hc
    have hgx : good (JsValue.arr xs) = true := hg _ (by rw [← hjv]; exact hj)
    unfold good at hgx
    have hxs : xs = .cons c cs := hc
    subst hxs
    exact goodArr_head hgx
  | undef => intro hc; cases hc
  | null => intro hc; cases hc
  | bool b => intro hc; cases hc
  | num n => intro hc; cases hc
  | str s => intro hc; cases hc
  | obj fs => intro hc; cases hc

theorem strOrFalsy_default {v : JsValue} (h : strOrFalsy v = true) :
    ∃ s, jsOr v (.str "") = .str s := by
  unfold jsOr
  cases v with
  | str s =>
    by_cases ht : truthy (JsValue.str s) = true
    · rw [if_pos ht]; exact ⟨s, rfl⟩
    · rw [if_neg ht]; exact ⟨"", rfl⟩
  | undef => rw [if_neg (by simp [truthy])]; exact ⟨"", rfl⟩
  | null => rw [if_neg (by simp [truthy])]; exact ⟨"", rfl⟩
  | bool b =>
    cases b with
    | false => rw [if_neg (by simp [truthy])]; exact ⟨"", rfl⟩
    | true => cases h
  | num n =>
    have hz : n = 0 := by
      unfold strOrFalsy at h
      exact of_decide_eq_true h
    subst hz
    rw [if_neg (by simp [truthy])]
    exact ⟨"", rfl⟩
  | arr xs => cases h
  | obj fs => cases h

theorem strOrFalsy_jsOr {a b : JsValue} (ha : strOrFalsy a = true)
    (hb : strOrFalsy b = true) : strOrFalsy (jsOr a b) = true := by
  unfold jsOr
  by_cases ht : truthy a = true
  · rw [if_pos ht]; exact ha
  · rw [if_neg ht]; exact hb

/-- The result of a `||` chain over `strOrFalsy` values, defaulted by
`|| ""`, coerces to a string without a `TypeError`. -/
theorem asString_of_chain {a b : JsValue} (ha : strOrFalsy a = true)
    (hb : strOrFalsy b = true) (m : String) :
    ∃ s, asStringMethodTarget (jsOr (jsOr a b) (.str "")) m = .ok s := by
  obtain ⟨s, hs⟩ := strOrFalsy_default (strOrFalsy_jsOr ha hb)
  rw [hs]
  exact ⟨s, rfl⟩

theorem asString_of_chain3 {a b c : JsValue} (ha : strOrFalsy a = true)
    (hb : strOrFalsy b = true) (hc : strOrFalsy c = true) (m : String) :
    ∃ s, asStringMethodTarget (jsOr (jsOr (jsOr a b) c) (.str "")) m = .ok s := by
  obtain ⟨s, hs⟩ := strOrFalsy_default (strOrFalsy_jsOr (strOrFalsy_jsOr ha hb) hc)
  rw [hs]
  exact ⟨s, rfl⟩

-- ─── Per-iteration lemmas about the automation loop ───

theorem iterate_obs_error (env : Env) (step : Nat) (s : LoopState) (m : String)
    (hc : s.cachedUi = none) (ho : observedUi env step = .error m) :
    iterate env step s = (.fail m, [.observeCall step]) := by
  unfold iterate
  rw [hc, ho]

theorem iterate_empty_abort (env : Env) (step : Nat) (s : LoopState) (u : Ui)
    (hc : s.cachedUi = none) (ho : observedUi env step = .ok u)
    (he : u.elements = []) (hcount : 2 ≤ s.emptyUiCount) :
    iterate env step s = (.halt (s.log ++ [⟨step, .str "abort",
      .str "Screen unreadable after retries", .str "failed"⟩]), [.observeCall step]) := by
  unfold iterate
  rw [hc, ho]
  simp only [he, List.length_nil]
  rw [if_pos (show MAX_EMPTY_UI_RETRIES ≤ s.emptyUiCount + 1 by
    unfold MAX_EMPTY_UI_RETRIES; omega)]
  exact if_pos trivial

theorem iterate_empty_continue (env : Env) (step : Nat) (s : LoopState) (u : Ui)
    (hc : s.cachedUi = none) (ho : observedUi env step = .ok u)
    (he : u.elements = []) (hcount : s.emptyUiCount < 2) :
    iterate env step s =
      (.next { s with cachedUi := none, emptyUiCount := s.emptyUiCount + 1 },
        [.observeCall step]) := by
  unfold iterate
  rw [hc, ho]
  simp only [he, List.length_nil]
  rw [if_neg (show ¬(MAX_EMPTY_UI_RETRIES ≤ s.emptyUiCount + 1) by
    unfold MAX_EMPTY_UI_RETRIES; omega)]
  exact if_pos trivial

theorem iterate_decide_error (env : Env) (step : Nat) (s : LoopState) (u : Ui) (m : String)
    (hc : s.cachedUi = none) (ho : observedUi env step = .ok u)
    (he : u.elements ≠ []) (hd : env.decide step = .error m) :
    iterate env step s =
      (.next { s with cachedUi := none, emptyUiCount := 0,
                      log := s.log ++ [⟨step, .str "llm_error", .str m, .str "failed"⟩] },
        [.observeCall step, .decideCall step]) := by
  unfold iterate
  rw [hc, ho]
  simp only [List.length_eq_zero]
  rw [if_neg he, hd]
  rfl

theorem iterate_done (env : Env) (step : Nat) (s : LoopState) (u : Ui) (a : AutoAction)
    (hc : s.cachedUi = none) (ho : observedUi env step = .ok u)
    (he : u.elements ≠ []) (hd : env.decide step = .ok a)
    (hdone : (a.action == JsValue.str "done") = true) :
    iterate env step s = (.halt (s.log ++ [⟨step, .str "done",
      jsOr a.reasoning (.str ""), jsOr a.summary (.str "completed")⟩]),
      [.observeCall step, .decideCall step]) := by
  unfold iterate
  rw [hc, ho]
  simp only [List.length_eq_zero]
  rw [if_neg he, hd]
  simp only [hdone, if_true]
  rfl

theorem iterate_stall_abort (env : Env) (step : Nat) (s : LoopState) (u : Ui) (a : AutoAction)
    (hc : s.cachedUi = none) (ho : observedUi env step = .ok u)
    (he : u.elements ≠ []) (hd : env.decide step = .ok a)
    (hdone : (a.action == JsValue.str "done") = false)
    (hkey : actionKeyOf a = s.lastActionKey) (hcount : 2 ≤ s.sameActionCount) :
    iterate env step s = (.halt (s.log ++ [⟨step, .str "abort",
      .str "Same action repeated 3 times — stuck", .str "failed"⟩]),
      [.observeCall step, .decideCall step]) := by
  unfold iterate
  rw [hc, ho]
  simp only [List.length_eq_zero]
  rw [if_neg he, hd]
  simp only [hdone, Bool.false_eq_true, if_false]
  rw [if_pos hkey]
  rw [if_pos (show MAX_CONSECUTIVE_SAME_ACTION ≤ s.sameActionCount + 1 by
    unfold MAX_CONSECUTIVE_SAME_ACTION; omega)]
  rfl

theorem iterate_stall_incr (env : Env) (step : Nat) (s : LoopState) (u : Ui) (a : AutoAction)
    (hc : s.cachedUi = none) (ho : observedUi env step = .ok u)
    (he : u.elements ≠ []) (hd : env.decide step = .ok a)
    (hdone : (a.action == JsValue.str "done") = false)
    (hkey : actionKeyOf a = s.lastActionKey) (hcount : s.sameActionCount < 2) :
    iterate env step s =
      actPhase env step
        { s with cachedUi := none, emptyUiCount := 0,
                 sameActionCount := s.sameActionCount + 1 } a u
        [.observeCall step, .decideCall step] := by
  unfold iterate
  rw [hc, ho]
  simp only [List.length_eq_zero]
  rw [if_neg he, hd]
  simp only [hdone, Bool.false_eq_true, if_false]
  rw [if_pos hkey]
  rw [if_neg (show ¬(MAX_CONSECUTIVE_SAME_ACTION ≤ s.sameActionCount + 1) by
    unfold MAX_CONSECUTIVE_SAME_ACTION; omega)]
  rfl

theorem iterate_newkey (env : Env) (step : Nat) (s : LoopState) (u : Ui) (a : AutoAction)
    (hc : s.cachedUi = none) (ho : observedUi env step = .ok u)
    (he : u.elements ≠ []) (hd : env.decide step = .ok a)
    (hdone : (a.action == JsValue.str "done") = false)
    (hkey : actionKeyOf a ≠ s.lastActionKey) :
    iterate env step s =
      actPhase env step
        { s with cachedUi := none, emptyUiCount := 0,
                 sameActionCount := 1, lastActionKey := actionKeyOf a } a u
        [.observeCall step, .decideCall step] := by
  unfold iterate
  rw [hc, ho]
  simp only [List.length_eq_zero]
  rw [if_neg he, hd]
  simp only [hdone, Bool.false_eq_true, if_false]
  rw [if_neg hkey]
  rfl

theorem localResp_no_inline {a : AutoAction} {els : List UiElement} {r : CommandResponse}
    (hdone : (a.action == JsValue.str "done") = false)
    (h : executeActionPlan a els = .localResp r) : inlineUiOf r = none := by
  unfold executeActionPlan at h
  repeat' split at h
  all_goals first
  | exact ExecStep.noConfusion h
  | (rename_i hcond; rw [hdone] at hcond; exact Bool.noConfusion hcond)
  | (injection h with h2; subst h2; rfl)

theorem actPhase_chan_error (env : Env) (step : Nat) (s : LoopState) (a : AutoAction)
    (u : Ui) (evs : List Event) (c : ChannelCall) (m : String)
    (hplan : executeActionPlan a u.elements = .channel c)
    (hch : env.chan step c = .error m) :
    actPhase env step s a u evs =
      (.next { s with
          log := s.log ++ [⟨step, a.action, jsOr a.reasoning (.str ""),
            .str ("error: " ++ m)⟩],
          actionHistory := s.actionHistory ++ [⟨a.action, .str ("FAILED: " ++ m)⟩] },
        evs ++ [.chanCall step c]) := by
  unfold actPhase
  simp only [hplan]
  rw [hch]

theorem actPhase_next (env : Env) (step : Nat) (s : LoopState) (a : AutoAction)
    (u : Ui) (evs : List Event)
    (hdone : (a.action == JsValue.str "done") = false)
    (hchan : ∀ c r, env.chan step c = .ok r → inlineUiOf r = none) :
    ∃ log2 hist2 evs2, actPhase env step s a u evs =
      (.next { s with log := log2, actionHistory := hist2 }, evs2) := by
  unfold actPhase
  cases hplan : executeActionPlan a u.elements with
  | localResp r =>
    have hinl := localResp_no_inline hdone hplan
    simp only [hplan]
    unfold actFinish
    simp only [hinl]
    exact ⟨_, _, _, rfl⟩
  | channel c =>
    simp only [hplan]
    cases hch : env.chan step c with
    | error m =>
      simp only [hch]
      exact ⟨_, _, _, rfl⟩
    | ok r =>
      have hinl := hchan c r hch
      simp only [hch]
      unfold actFinish
      simp only [hinl]
      exact ⟨_, _, _, rfl⟩

theorem actPhase_fail_inv (env : Env) (step : Nat) (s : LoopState) (a : AutoAction)
    (u : Ui) (evs : List Event) (m : String) (e : List Event)
    (hdone : (a.action == JsValue.str "done") = false)
    (h : actPhase env step s a u evs = (.fail m, e)) :
    ∃ c r v, env.chan step c = .ok r ∧ inlineUiOf r = some v ∧
      compressUiTree v = .error m := by
  unfold actPhase at h
  cases hplan : executeActionPlan a u.elements with
  | localResp r =>
    have hinl := localResp_no_inline hdone hplan
    simp only [hplan] at h
    unfold actFinish at h
    simp only [hinl] at h
    cases h
  | channel c =>
    simp only [hplan] at h
    cases hch : env.chan step c with
    | error m2 =>
      simp only [hch] at h
      cases h
    | ok r =>
      simp only [hch] at h
      unfold actFinish at h
      cases hinl : inlineUiOf r with
      | none => simp only [hinl] at h; cases h
      | some v =>
        simp only [hinl] at h
        cases hcm : compressUiTree v with
        | error m2 =>
          simp only [hcm] at h
          have hm : m2 = m := by
            rw [Prod.mk.injEq] at h
            have := h.1
            injection this
          subst hm
          exact ⟨c, r, v, hch, hinl, hcm⟩
        | ok p =>
          obtain ⟨t, els⟩ := p
          simp only [hcm] at h
          cases h

theorem iterate_fail_inv (env : Env) (step : Nat) (s : LoopState) (m : String)
    (e : List Event) (h : iterate env step s = (.fail m, e)) :
    (s.cachedUi = none ∧ observedUi env step = .error m) ∨
    (∃ c r v, env.chan step c = .ok r ∧ inlineUiOf r = some v ∧
      compressUiTree v = .error m) := by
  unfold iterate at h
  cases hcu : s.cachedUi with
  | some u =>
    right
    rw [hcu] at h
    by_cases hlen : u.elements.length = 0
    · simp only [if_pos hlen] at h
      split at h <;> (injection h with h1 h2; cases h1)
    · simp only [if_neg hlen] at h
      cases hd : env.decide step with
      | error m2 =>
        simp only [hd] at h
        injection h with h1 h2
        cases h1
      | ok a =>
        simp only [hd] at h
        by_cases hdone : (a.action == JsValue.str "done") = true
        · simp only [if_pos hdone] at h
          injection h with h1 h2
          cases h1
        · simp only [if_neg hdone] at h
          rw [Bool.not_eq_true] at hdone
          split at h
          · split at h
            · injection h with h1 h2; cases h1
            · exact actPhase_fail_inv env step _ a u _ m e hdone h
          · exact actPhase_fail_inv env step _ a u _ m e hdone h
  | none =>
    rw [hcu] at h
    cases ho : observedUi env step with
    | error m2 =>
      rw [ho] at h
      left
      injection h with h1 h2
      injection h1 with h1
      subst h1
      exact ⟨rfl, rfl⟩
    | ok u =>
      rw [ho] at h
      right
      by_cases hlen : u.elements.length = 0
      · simp only [if_pos hlen] at h
        split at h <;> (injection h with h1 h2; cases h1)
      · simp only [if_neg hlen] at h
        cases hd : env.decide step with
        | error m2 =>
          simp only [hd] at h
          injection h with h1 h2
          cases h1
        | ok a =>
          simp only [hd] at h
          by_cases hdone : (a.action == JsValue.str "done") = true
          · simp only [if_pos hdone] at h
            injection h with h1 h2
            cases h1
          · simp only [if_neg hdone] at h
            rw [Bool.not_eq_true] at hdone
            split at h
            · split at h
              · injection h with h1 h2; cases h1
              · exact actPhase_fail_inv env step _ a u _ m e hdone h
            · exact actPhase_fail_inv env step _ a u _ m e hdone h

theorem loopAux_fail_first (env : Env) (fuel step : Nat) (s : LoopState)
    (evs : List Event) (m : String) (e : List Event)
    (hfuel : 0 < fuel) (h : iterate env step s = (.fail m, e)) :
    loopAux env fuel step s evs = .error m := by
  cases fuel with
  | zero => omega
  | succ fuel =>
    unfold loopAux
    rw [h]

theorem loopAux_ok (env : Env)
    (hnf : ∀ step s m e, iterate env step s ≠ (.fail m, e)) :
    ∀ fuel step s evs, ∃ log evs2 iters,
      loopAux env fuel step s evs = .ok (log, evs2, iters) ∧ iters ≤ step + fuel := by
  intro fuel
  induction fuel with
  | zero =>
    intro step s evs
    exact ⟨s.log, evs, step, rfl, by omega⟩
  | succ fuel ih =>
    intro step s evs
    unfold loopAux
    cases hit : iterate env step s with
    | mk res ev =>
      cases res with
      | next s2 =>
        obtain ⟨log, evs2, iters, hrun, hle⟩ := ih (step + 1) s2 (evs ++ ev)
        exact ⟨log, evs2, iters, hrun, by omega⟩
      | halt log =>
        exact ⟨log, evs ++ ev, step + 1, rfl, by omega⟩
      | fail m => exact absurd hit (hnf step s m ev)

-- ─── Concrete evaluation helpers ───

/-- `walk` on the node `{text: 1}`: the truthy non-string `text`
raises a `TypeError`. -/
theorem walk_textNum_eval :
    walk (.obj (.cons "text" (.num 1) .nil)) [] =
      .error "TypeError: text.trim is not a function" := by
  rw [walk.eq_def]
  rfl

theorem compress_textNum_eval :
    compressUiTree (.obj (.cons "text" (.num 1) .nil)) =
      .error "TypeError: text.trim is not a function" := by
  simp only [compressUiTree, compressUiRoots, walk_textNum_eval]

/-- The raw Button node of the specification's scenario. -/
def buttonNode : JsValue :=
  .obj (.cons "class" (.str "android.widget.Button")
    (.cons "text" (.str "Send")
      (.cons "bounds" (.str "[100,200][300,260]")
        (.cons "clickable" (.bool true) .nil))))

def buttonElement : UiElement :=
  ⟨0, "Button", "Send", ⟨200, 230, 100, 200, 300, 260⟩, true, false, false, none⟩

theorem walk_buttonNode_eval : walk buttonNode [] = .ok [buttonElement] := by
  rw [walk.eq_def]
  rfl

-- ─── C1 ───

/-- An environment whose channel always answers with structured
responses, but whose `get_ui_elements` payload is a node with a truthy
non-string `text` — its compression throws. -/
def envC1bad : Env :=
  ⟨fun _ => .ok ⟨"completed", some (.obj (.cons "text" (.num 1) .nil)), none⟩,
   fun _ => .ok { action := .str "wait" },
   fun _ _ => .ok ⟨"completed", none, none⟩⟩

/-- An environment whose observation payload is the truthy string
`"null"`: it JSON-parses to `null` and the source's unguarded
`raw.ui_elements` read throws. -/
def envC1null : Env :=
  ⟨fun _ => .ok ⟨"completed", some (.str "null"), none⟩,
   fun _ => .ok { action := .str "wait" },
   fun _ _ => .ok ⟨"completed", none, none⟩⟩

/-- C1 (counterexample): the loop does not always return a textual
report — a structured observation response whose payload compresses
with a `TypeError` (a node with `text: 1`), or whose payload is the
string `"null"` (so the unwrapping's `raw.ui_elements` read throws),
escapes the loop, and the tool surfaces a failure string instead. -/
theorem claim_C1_counterexample :
    automationLoop envC1bad "goal" = .error "TypeError: text.trim is not a function" ∧
    phoneDoTask envC1bad "goal" =
      "Phone automation failed: TypeError: text.trim is not a function" ∧
    automationLoop envC1null "goal" =
      .error "TypeError: Cannot read properties of null (reading 'ui_elements')" ∧
    phoneDoTask envC1null "goal" =
      "Phone automation failed: TypeError: Cannot read properties of null (reading 'ui_elements')" := by
  have key : ∀ (z : Except String (String × List UiElement)),
      z = .error "TypeError: text.trim is not a function" →
      (match z with
        | Except.error m => (Except.error m : Except String Ui)
        | Except.ok (t, els) => Except.ok ⟨t, els⟩) =
        .error "TypeError: text.trim is not a function" := by
    intro z hz
    subst hz
    rfl
  have hobs : observedUi envC1bad 0 = .error "TypeError: text.trim is not a function" :=
    key _ compress_textNum_eval
  have hiter := iterate_obs_error envC1bad 0 initialState _ rfl hobs
  have hrun : automationRun envC1bad = .error "TypeError: text.trim is not a function" := by
    unfold automationRun
    exact loopAux_fail_first envC1bad MAX_STEPS 0 initialState [] _ _ (by decide) hiter
  have hobs2 : observedUi envC1null 0 =
      .error "TypeError: Cannot read properties of null (reading 'ui_elements')" := rfl
  have hiter2 := iterate_obs_error envC1null 0 initialState _ rfl hobs2
  have hrun2 : automationRun envC1null =
      .error "TypeError: Cannot read properties of null (reading 'ui_elements')" := by
    unfold automationRun
    exact loopAux_fail_first envC1null MAX_STEPS 0 initialState [] _ _ (by decide) hiter2
  refine ⟨?_, ?_, ?_, ?_⟩
  · unfold automationLoop
    rw [hrun]
  · unfold phoneDoTask
    rw [if_neg (by decide)]
    unfold automationLoop
    rw [hrun]
    rfl
  · unfold automationLoop
    rw [hrun2]
  · unfold phoneDoTask
    rw [if_neg (by decide)]
    unfold automationLoop
    rw [hrun2]
    rfl

/-- Whenever the loop completes normally, it ran at most
`step + fuel` iterations. -/
theorem loopAux_iters_le (env : Env) : ∀ (fuel step : Nat) (s : LoopState)
    (evs : List Event) (log : List StepLog) (evs2 : List Event) (iters : Nat),
    loopAux env fuel step s evs = .ok (log, evs2, iters) → iters ≤ step + fuel := by
  intro fuel
  induction fuel with
  | zero =>
    intro step s evs log evs2 iters h
    have h2 : (.ok (s.log, evs, step) : Except String _) = .ok (log, evs2, iters) := h
    injection h2 with h3
    injection h3 with ha hb
    injection hb with hb hc
    omega
  | succ fuel ih =>
    intro step s evs log evs2 iters h
    unfold loopAux at h
    cases hit : iterate env step s with
    | mk io e =>
      rw [hit] at h
      cases io with
      | next s2 =>
        have h2 : loopAux env fuel (step + 1) s2 (evs ++ e) = .ok (log, evs2, iters) := h
        have := ih (step + 1) s2 (evs ++ e) log evs2 iters h2
        omega
      | halt L =>
        have h2 : (.ok (L, evs ++ e, step + 1) : Except String _) = .ok (log, evs2, iters) := h
        injection h2 with h3
        injection h3 with ha hb
        injection hb with hb hc
        omega
      | fail m =>
        have h2 : (.error m : Except String _) = .ok (log, evs2, iters) := h
        cases h2

/-- C1 (amended): the loop always terminates, and whenever it
completes it performed at most 20 iterations — for every sequence of
oracle decisions and channel responses, unconditionally; and whenever
every observation round trip (payload unwrapping included) reads a
screen without a thrown `TypeError` and every inline `ui_elements`
payload compresses without one, the run completes and the tool
returns the textual report. -/
theorem claim_C1 :
    (∀ (env : Env) (log : List StepLog) (evs : List Event) (iters : Nat),
      automationRun env = .ok (log, evs, iters) → iters ≤ 20)
    ∧ (∀ (env : Env) (goal : String),
      (∀ n, (observedUi env n).isOk = true) →
      (∀ n c r v, env.chan n c = .ok r → inlineUiOf r = some v →
        (compressUiTree v).isOk = true) →
      ∃ log evs iters, automationRun env = .ok (log, evs, iters) ∧
        automationLoop env goal = .ok (renderReport goal log)) := by
  constructor
  · intro env log evs iters h
    unfold automationRun at h
    have := loopAux_iters_le env MAX_STEPS 0 initialState [] log evs iters h
    unfold MAX_STEPS at this
    omega
  · intro env goal hobs hinline
    have hnf : ∀ step s m e, iterate env step s ≠ (.fail m, e) := by
      intro step s m e hiter
      rcases iterate_fail_inv env step s m e hiter with ⟨_, ho⟩ | ⟨c, r, v, hch, hinl, hcm⟩
      · have hx := hobs step
        rw [ho] at hx
        cases hx
      · have hx := hinline step c r v hch hinl
        rw [hcm] at hx
        cases hx
    obtain ⟨log, evs2, iters, hrun, hle⟩ := loopAux_ok env hnf MAX_STEPS 0 initialState []
    have hrun2 : automationRun env = .ok (log, evs2, iters) := hrun
    refine ⟨log, evs2, iters, hrun2, ?_⟩
    unfold automationLoop
    rw [hrun2]

/-- A benign environment: every observation is a structured response
whose falsy payload reads as an unreadable screen. -/
def envC1ok : Env :=
  ⟨fun _ => .ok ⟨"completed", none, none⟩,
   fun _ => .ok { action := .str "wait" },
   fun _ _ => .ok ⟨"completed", none, none⟩⟩

theorem claim_C1_witness :
    automationRun envC1ok =
      .ok ([⟨2, .str "abort", .str "Screen unreadable after retries", .str "failed"⟩],
        [.observeCall 0, .observeCall 1, .observeCall 2], 3) ∧
    3 ≤ 20 ∧
    (∀ n, (observedUi envC1ok n).isOk = true) ∧
    (∃ log evs iters, automationRun envC1ok = .ok (log, evs, iters) ∧
      automationLoop envC1ok "open settings" = .ok (renderReport "open settings" log)) := by
  refine ⟨rfl, ?_, fun n => rfl, ?_⟩
  · exact claim_C1.1 envC1ok
      [⟨2, .str "abort", .str "Screen unreadable after retries", .str "failed"⟩]
      [.observeCall 0, .observeCall 1, .observeCall 2] 3 rfl
  · exact claim_C1.2 envC1ok "open settings" (fun n => rfl)
      (fun n c r v hr hv => by
        injection hr with hr
        rw [← hr] at hv
        cases hv)

-- ─── C2 ───

theorem actFinish_next_fields (step : Nat) (s : LoopState) (a : AutoAction)
    (result : CommandResponse) (evs : List Event) (s2 : LoopState) (e : List Event)
    (h : actFinish step s a result evs = (.next s2, e)) :
    s2.sameActionCount = s.sameActionCount ∧ s2.emptyUiCount = s.emptyUiCount ∧
      s2.lastActionKey = s.lastActionKey := by
  unfold actFinish at h
  cases hinl : inlineUiOf result with
  | none =>
    simp only [hinl] at h
    injection h with h1 h2
    injection h1 with h1
    rw [← h1]
    exact ⟨rfl, rfl, rfl⟩
  | some v =>
    simp only [hinl] at h
    cases hcm : compressUiTree v with
    | error m =>
      simp only [hcm] at h
      injection h with h1 h2
      cases h1
    | ok p =>
      obtain ⟨t, els⟩ := p
      simp only [hcm] at h
      injection h with h1 h2
      injection h1 with h1
      rw [← h1]
      exact ⟨rfl, rfl, rfl⟩

theorem actPhase_next_fields (env : Env) (step : Nat) (s : LoopState) (a : AutoAction)
    (u : Ui) (evs : List Event) (s2 : LoopState) (e : List Event)
    (h : actPhase env step s a u evs = (.next s2, e)) :
    s2.sameActionCount = s.sameActionCount ∧ s2.emptyUiCount = s.emptyUiCount ∧
      s2.lastActionKey = s.lastActionKey := by
  unfold actPhase at h
  cases hplan : executeActionPlan a u.elements with
  | localResp r =>
    simp only [hplan] at h
    exact actFinish_next_fields step s a r evs s2 e h
  | channel c =>
    simp only [hplan] at h
    cases hch : env.chan step c with
    | error m =>
      simp only [hch] at h
      injection h with h1 h2
      injection h1 with h1
      rw [← h1]
      exact ⟨rfl, rfl, rfl⟩
    | ok r =>
      simp only [hch] at h
      exact actFinish_next_fields step s a r _ s2 e h

/-- C2: three consecutive decisions with an identical signature abort
the run on the 3rd repeat (which is never executed); a decision with a
different signature resets the repeat counter to 1. -/
theorem claim_C2 :
    (∀ (env : Env) (n : Nat) (s : LoopState) (u0 u1 u2 : Ui) (a0 a1 a2 : AutoAction),
      s.cachedUi = none →
      observedUi env n = .ok u0 → u0.elements ≠ [] →
      observedUi env (n + 1) = .ok u1 → u1.elements ≠ [] →
      observedUi env (n + 2) = .ok u2 → u2.elements ≠ [] →
      env.decide n = .ok a0 → env.decide (n + 1) = .ok a1 → env.decide (n + 2) = .ok a2 →
      (a0.action == JsValue.str "done") = false →
      (a1.action == JsValue.str "done") = false →
      (a2.action == JsValue.str "done") = false →
      actionKeyOf a1 = actionKeyOf a0 → actionKeyOf a2 = actionKeyOf a0 →
      actionKeyOf a0 ≠ s.lastActionKey →
      (∀ k c r, k < 2 → env.chan (n + k) c = .ok r → inlineUiOf r = none) →
      ∃ s1 s2 e0 e1,
        iterate env n s = (.next s1, e0) ∧
        iterate env (n + 1) s1 = (.next s2, e1) ∧
        s1.sameActionCount = 1 ∧ s2.sameActionCount = 2 ∧
        iterate env (n + 2) s2 = (.halt (s2.log ++ [⟨n + 2, .str "abort",
          .str "Same action repeated 3 times — stuck", .str "failed"⟩]),
          [.observeCall (n + 2), .decideCall (n + 2)]) ∧
        (∀ c, Event.chanCall (n + 2) c ∉
          [Event.observeCall (n + 2), Event.decideCall (n + 2)]))
    ∧ (∀ (env : Env) (n : Nat) (s : LoopState) (u : Ui) (a : AutoAction)
        (s2 : LoopState) (e : List Event),
      s.cachedUi = none → observedUi env n = .ok u → u.elements ≠ [] →
      env.decide n = .ok a → (a.action == JsValue.str "done") = false →
      actionKeyOf a ≠ s.lastActionKey →
      iterate env n s = (.next s2, e) → s2.sameActionCount = 1) := by
  constructor
  · intro env n s u0 u1 u2 a0 a1 a2 hc ho0 he0 ho1 he1 ho2 he2 hd0 hd1 hd2
      hdone0 hdone1 hdone2 hk1 hk2 hk0 hinline
    obtain ⟨log1, hist1, evs1, hact0⟩ := actPhase_next env n
      { s with cachedUi := none, emptyUiCount := 0,
               sameActionCount := 1, lastActionKey := actionKeyOf a0 }
      a0 u0 [.observeCall n, .decideCall n] hdone0
      (fun c r hr => hinline 0 c r (by omega) hr)
    have hiter0 :=
      (iterate_newkey env n s u0 a0 hc ho0 he0 hd0 hdone0 hk0).trans hact0
    obtain ⟨log2, hist2, evs2, hact1⟩ := actPhase_next env (n + 1)
      { log := log1, actionHistory := hist1, lastActionKey := actionKeyOf a0,
        sameActionCount := 2, emptyUiCount := 0, cachedUi := none }
      a1 u1 [.observeCall (n + 1), .decideCall (n + 1)] hdone1
      (fun c r hr => hinline 1 c r (by omega) hr)
    have hiter1 :=
      (iterate_stall_incr env (n + 1)
        { log := log1, actionHistory := hist1, lastActionKey := actionKeyOf a0,
          sameActionCount := 1, emptyUiCount := 0, cachedUi := none }
        u1 a1 rfl ho1 he1 hd1 hdone1 hk1 (by norm_num)).trans hact1
    have hiter2 := iterate_stall_abort env (n + 2)
      { log := log2, actionHistory := hist2, lastActionKey := actionKeyOf a0,
        sameActionCount := 2, emptyUiCount := 0, cachedUi := none }
      u2 a2 rfl ho2 he2 hd2 hdone2 hk2 (by norm_num)
    refine ⟨_, _, evs1, evs2, hiter0, hiter1, rfl, rfl, hiter2, ?_⟩
    intro c
    simp
  · intro env n s u a s2 e hc ho he hd hdone hkey hiter
    rw [iterate_newkey env n s u a hc ho he hd hdone hkey] at hiter
    have hfields := actPhase_next_fields env n
      { s with cachedUi := none, emptyUiCount := 0,
               sameActionCount := 1, lastActionKey := actionKeyOf a }
      a u [.observeCall n, .decideCall n] s2 e hiter
    exact hfields.1

/-- Compressing the Button node succeeds with the one-line summary. -/
theorem compress_button_eval :
    compressUiTree buttonNode =
      .ok ("[0] Button \x22Send\x22 [200,230] clickable", [buttonElement]) := by
  have h1 : compressUiRoots buttonNode = .ok [buttonElement] := by
    show walk buttonNode [] = .ok [buttonElement]
    exact walk_buttonNode_eval
  simp only [compressUiTree, h1]
  rfl

/-- The observed screen of the Button scenario. -/
def buttonUi : Ui := ⟨"[0] Button \x22Send\x22 [200,230] clickable", [buttonElement]⟩

/-- The oracle decision repeated by the stalling environment. -/
def tapA : AutoAction := { action := .str "tap", element := .num 0 }

/-- The stalling environment: every observation shows the Button
screen, the oracle always decides the same `tap` on element 0, and the
channel ack carries no inline UI. -/
def envC2 : Env :=
  ⟨fun _ => .ok ⟨"completed", some buttonNode, none⟩,
   fun _ => .ok tapA,
   fun _ _ => .ok ⟨"completed", none, none⟩⟩

theorem observed_envC2 (n : Nat) : observedUi envC2 n = .ok buttonUi := by
  have key : ∀ (z : Except String (String × List UiElement)),
      z = .ok ("[0] Button \x22Send\x22 [200,230] clickable", [buttonElement]) →
      (match z with
        | Except.error m => (Except.error m : Except String Ui)
        | Except.ok (t, els) => Except.ok ⟨t, els⟩) = .ok buttonUi := by
    intro z hz
    subst hz
    rfl
  exact key _ compress_button_eval

theorem claim_C2_witness :
    ∃ s1 s2 e0 e1,
      iterate envC2 0 initialState = (.next s1, e0) ∧
      iterate envC2 1 s1 = (.next s2, e1) ∧
      s1.sameActionCount = 1 ∧ s2.sameActionCount = 2 ∧
      iterate envC2 2 s2 = (.halt (s2.log ++ [⟨2, .str "abort",
        .str "Same action repeated 3 times — stuck", .str "failed"⟩]),
        [.observeCall 2, .decideCall 2]) ∧
      (∀ c, Event.chanCall 2 c ∉ [Event.observeCall 2, Event.decideCall 2]) := by
  exact claim_C2.1 envC2 0 initialState buttonUi buttonUi buttonUi tapA tapA tapA
    rfl (observed_envC2 0) (by decide) (observed_envC2 1) (by decide)
    (observed_envC2 2) (by decide) rfl rfl rfl rfl rfl rfl rfl rfl
    (by decide) (fun k c r _ hr => by injection hr with hr; rw [← hr]; rfl)

-- ─── C3 ───

/-- C3: three consecutive empty observations abort the run, the
Decision Oracle is never called on an empty observation, and a
non-empty observation resets the empty-observation counter to 0. -/
theorem claim_C3 :
    (∀ (env : Env) (n : Nat) (s : LoopState) (u0 u1 u2 : Ui),
      s.cachedUi = none → s.emptyUiCount = 0 →
      observedUi env n = .ok u0 → u0.elements = [] →
      observedUi env (n + 1) = .ok u1 → u1.elements = [] →
      observedUi env (n + 2) = .ok u2 → u2.elements = [] →
      ∃ s1 s2,
        iterate env n s = (.next s1, [.observeCall n]) ∧
        iterate env (n + 1) s1 = (.next s2, [.observeCall (n + 1)]) ∧
        iterate env (n + 2) s2 = (.halt (s2.log ++ [⟨n + 2, .str "abort",
          .str "Screen unreadable after retries", .str "failed"⟩]),
          [.observeCall (n + 2)]) ∧
        (∀ m, Event.decideCall m ∉ [Event.observeCall n,
          Event.observeCall (n + 1), Event.observeCall (n + 2)]))
    ∧ (∀ (env : Env) (n : Nat) (s : LoopState) (u : Ui) (s2 : LoopState)
        (e : List Event),
      s.cachedUi = none → observedUi env n = .ok u → u.elements ≠ [] →
      iterate env n s = (.next s2, e) → s2.emptyUiCount = 0) := by
  constructor
  · intro env n s u0 u1 u2 hc hcnt ho0 he0 ho1 he1 ho2 he2
    have h0 := iterate_empty_continue env n s u0 hc ho0 he0 (by omega)
    have h1 := iterate_empty_continue env (n + 1)
      { s with cachedUi := none, emptyUiCount := s.emptyUiCount + 1 } u1 rfl ho1 he1
      (by show s.emptyUiCount + 1 < 2; omega)
    have h2 := iterate_empty_abort env (n + 2)
      { s with cachedUi := none, emptyUiCount := s.emptyUiCount + 1 + 1 } u2 rfl ho2 he2
      (by show 2 ≤ s.emptyUiCount + 1 + 1; omega)
    refine ⟨_, _, h0, h1, h2, ?_⟩
    intro m
    simp
  · intro env n s u s2 e hc ho he hiter
    cases hd : env.decide n with
    | error m =>
      rw [iterate_decide_error env n s u m hc ho he hd] at hiter
      injection hiter with h1 h2
      injection h1 with h1
      rw [← h1]
    | ok a =>
      by_cases hdone : (a.action == JsValue.str "done") = true
      · rw [iterate_done env n s u a hc ho he hd hdone] at hiter
        injection hiter with h1 h2
        exact IterOut.noConfusion h1
      · have hdone' : (a.action == JsValue.str "done") = false :=
          Bool.eq_false_iff.mpr hdone
        by_cases hkey : actionKeyOf a = s.lastActionKey
        · by_cases hcnt2 : 2 ≤ s.sameActionCount
          · rw [iterate_stall_abort env n s u a hc ho he hd hdone' hkey hcnt2] at hiter
            injection hiter with h1 h2
            exact IterOut.noConfusion h1
          · rw [iterate_stall_incr env n s u a hc ho he hd hdone' hkey
              (by omega)] at hiter
            exact (actPhase_next_fields _ _ _ _ _ _ _ _ hiter).2.1
        · rw [iterate_newkey env n s u a hc ho he hd hdone' hkey] at hiter
          exact (actPhase_next_fields _ _ _ _ _ _ _ _ hiter).2.1

/-- The unreadable-screen observation. -/
def unreadableUi : Ui := ⟨"[Screen could not be read]", []⟩

/-- An environment whose observation responses have no payload, so
every observation reads as an unreadable (empty) screen. -/
def envC3 : Env :=
  ⟨fun _ => .ok ⟨"completed", none, none⟩,
   fun _ => .error "no decision",
   fun _ _ => .error "no channel"⟩

theorem claim_C3_witness :
    ∃ s1 s2,
      iterate envC3 0 initialState = (.next s1, [.observeCall 0]) ∧
      iterate envC3 1 s1 = (.next s2, [.observeCall 1]) ∧
      iterate envC3 2 s2 = (.halt (s2.log ++ [⟨2, .str "abort",
        .str "Screen unreadable after retries", .str "failed"⟩]),
        [.observeCall 2]) ∧
      (∀ m, Event.decideCall m ∉ [Event.observeCall 0,
        Event.observeCall 1, Event.observeCall 2]) := by
  exact claim_C3.1 envC3 0 initialState unreadableUi unreadableUi unreadableUi
    rfl rfl rfl rfl rfl rfl rfl rfl

-- ─── C4 ───

/-- C4: a `tap`/`double_tap`/`long_press` whose element index is out
of range fails locally with `Element [N] not found` and issues no
Command Channel call. -/
theorem claim_C4 (send : ChannelCall → Except String CommandResponse)
    (a : AutoAction) (elements : List UiElement) (n : Int)
    (hk : a.action = .str "tap" ∨ a.action = .str "double_tap" ∨
      a.action = .str "long_press")
    (hel : a.element = .num n)
    (hrange : n < 0 ∨ elements.length ≤ n.toNat) :
    executeAction send a elements =
      ([], .ok ⟨"failed", none,
        some ("Element [" ++ jsDisplay (.num n) ++ "] not found")⟩) := by
  have hnone : jsIndex elements (.num n) = none := by
    show (if n < 0 then none else elements.get? n.toNat) = none
    rcases hrange with h | h
    · rw [if_pos h]
    · rcases lt_or_le n 0 with h2 | h2
      · rw [if_pos h2]
      · rw [if_neg (by omega)]
        exact List.get?_eq_none.mpr h
  unfold executeAction executeActionPlan
  rcases hk with h | h | h <;> rw [h, hel] <;> simp only [hnone] <;> rfl

theorem claim_C4_witness :
    executeAction (fun _ => .error "no channel")
      { action := .str "tap", element := .num 5 } [buttonElement] =
      ([], .ok ⟨"failed", none, some "Element [5] not found"⟩) := by
  exact claim_C4 (fun _ => .error "no channel")
    { action := .str "tap", element := .num 5 } [buttonElement] 5
    (Or.inl rfl) rfl (Or.inr (by decide))

-- ─── C5 ───

/-- The spec's oracle-reply scenario: free text followed by one JSON
object. -/
def scenarioC5 : String :=
  "I will tap the button. \x7b\"action\":\"tap\",\"element\":0,\"reasoning\":\"send message\"\x7d"

/-- Two balanced JSON objects in one reply. -/
def twoObjC5 : String :=
  "\x7b\"action\":\"wait\"\x7d \x7b\"action\":\"tap\",\"element\":0\x7d"

/-- C5 (counterexample): on a reply holding two JSON objects, the
first balanced object parses to a `wait` action, but the adapter's
greedy first-`\x7b`-to-last-`\x7d` slice spans both objects and fails to
parse, so `parseAction` throws instead of decoding the first balanced
object. -/
theorem claim_C5_counterexample :
    firstBalancedJson twoObjC5 = some "\x7b\"action\":\"wait\"\x7d" ∧
    (∃ v, jsonParse "\x7b\"action\":\"wait\"\x7d" = some v ∧
      (AutoAction.ofJson v).action = .str "wait") ∧
    jsonSlice twoObjC5 = some twoObjC5 ∧
    parseAction twoObjC5 = .error ("Invalid JSON action: " ++ twoObjC5.take 200) := by
  refine ⟨rfl, ⟨_, rfl, rfl⟩, rfl, rfl⟩

/-- C5 (amended): the adapter slices from the first opening brace to
the LAST closing brace (not the first balanced object) and parses
that slice; on the spec's scenario — where the object is the final
text — this decodes the `tap` action with the prefix discarded; a
reply with no brace-delimited slice, or whose slice does not parse,
raises a decision error rather than yielding a default action. -/
theorem claim_C5 :
    (∃ a, parseAction scenarioC5 = .ok a ∧ a.action = .str "tap" ∧
      a.element = .num 0 ∧ a.reasoning = .str "send message")
    ∧ (∀ text, jsonSlice text = none →
        parseAction text = .error ("No JSON found in LLM response: " ++ text.take 200))
    ∧ (∀ text s, jsonSlice text = some s → jsonParse s = none →
        parseAction text = .error ("Invalid JSON action: " ++ s.take 200)) := by
  refine ⟨⟨_, rfl, rfl, rfl, rfl⟩, ?_, ?_⟩
  · intro text h
    unfold parseAction
    rw [h]
  · intro text s h1 h2
    unfold parseAction
    simp only [h1, h2]

theorem claim_C5_witness :
    parseAction "plain text" =
      .error ("No JSON found in LLM response: " ++ "plain text".take 200) ∧
    parseAction "\x7bbroken\x7d" =
      .error ("Invalid JSON action: " ++ "\x7bbroken\x7d".take 200) :=
  ⟨claim_C5.2.1 "plain text" rfl,
   claim_C5.2.2 "\x7bbroken\x7d" "\x7bbroken\x7d" rfl rfl⟩

-- ─── C6 ───

/-- C6 (counterexample): `press_button` without a `button` field is
not rejected — it decodes fine and is planned as a channel call with
the substitute button `home`. -/
theorem claim_C6_counterexample :
    ∃ a, parseAction "\x7b\"action\":\"press_button\"\x7d" = .ok a ∧
      executeActionPlan a [] =
        .channel ⟨"press_button", .field1 "button" (.str "home")⟩ :=
  ⟨_, rfl, rfl⟩

/-- C6 (amended): the unchecked cast performs no validation, so a
missing field decodes to `undefined` and execution substitutes a
default: `type` falls back to text `""`, `launch_app` to package name
`""`, `press_button` to button `home`; a `tap`/`double_tap`/
`long_press` without an `element` is executed and fails locally with
`Element [undefined] not found` — none of these is a decode error. -/
theorem claim_C6 :
    (∃ a, parseAction "\x7b\"action\":\"press_button\"\x7d" = .ok a ∧
      a.button = .undef ∧ ∀ els, executeActionPlan a els =
        .channel ⟨"press_button", .field1 "button" (.str "home")⟩)
    ∧ (∃ a, parseAction "\x7b\"action\":\"type\"\x7d" = .ok a ∧
      a.text = .undef ∧ ∀ els, executeActionPlan a els =
        .channel ⟨"send_text", .field1 "text" (.str "")⟩)
    ∧ (∃ a, parseAction "\x7b\"action\":\"launch_app\"\x7d" = .ok a ∧
      a.package_name = .undef ∧ ∀ els, executeActionPlan a els =
        .channel ⟨"launch_app", .field1 "package_name" (.str "")⟩)
    ∧ (∀ els, executeActionPlan { action := .str "tap" } els =
        .localResp ⟨"failed", none, some "Element [undefined] not found"⟩)
    ∧ (∀ els, executeActionPlan { action := .str "double_tap" } els =
        .localResp ⟨"failed", none, some "Element [undefined] not found"⟩)
    ∧ (∀ els, executeActionPlan { action := .str "long_press" } els =
        .localResp ⟨"failed", none, some "Element [undefined] not found"⟩) :=
  ⟨⟨_, rfl, rfl, fun els => rfl⟩, ⟨_, rfl, rfl, fun els => rfl⟩,
   ⟨_, rfl, rfl, fun els => rfl⟩, fun els => rfl, fun els => rfl, fun els => rfl⟩

-- ─── C7 ───

theorem loopAux_step_next (env : Env) (fuel step : Nat) (s : LoopState)
    (evs : List Event) (s2 : LoopState) (e : List Event)
    (h : iterate env step s = (.next s2, e)) :
    loopAux env (fuel + 1) step s evs = loopAux env fuel (step + 1) s2 (evs ++ e) := by
  conv_lhs => unfold loopAux
  rw [h]

theorem loopAux_step_halt (env : Env) (fuel step : Nat) (s : LoopState)
    (evs : List Event) (L : List StepLog) (e : List Event)
    (h : iterate env step s = (.halt L, e)) :
    loopAux env (fuel + 1) step s evs = .ok (L, evs ++ e, step + 1) := by
  conv_lhs => unfold loopAux
  rw [h]

/-- An environment whose action channel always throws. -/
def envC7 : Env :=
  ⟨fun _ => .ok ⟨"completed", some buttonNode, none⟩,
   fun _ => .ok tapA,
   fun _ _ => .error "boom"⟩

theorem observed_envC7 (n : Nat) : observedUi envC7 n = .ok buttonUi := by
  have key : ∀ (z : Except String (String × List UiElement)),
      z = .ok ("[0] Button \x22Send\x22 [200,230] clickable", [buttonElement]) →
      (match z with
        | Except.error m => (Except.error m : Except String Ui)
        | Except.ok (t, els) => Except.ok ⟨t, els⟩) = .ok buttonUi := by
    intro z hz
    subst hz
    rfl
  exact key _ compress_button_eval

/-- The stall-detection signature of `tapA`. -/
def tapKey : String := actionKeyOf tapA

/-- A step whose channel call threw `boom`, as logged. -/
def logBoom (n : Nat) : StepLog := ⟨n, .str "tap", .str "", .str "error: boom"⟩

def histBoom : HistEntry := ⟨.str "tap", .str "FAILED: boom"⟩

theorem iterC7_0 : iterate envC7 0 initialState =
    (.next ⟨[logBoom 0], [histBoom], tapKey, 1, 0, none⟩,
     [.observeCall 0, .decideCall 0, .chanCall 0 ⟨"tap", .xy 200 230⟩]) :=
  (iterate_newkey envC7 0 initialState buttonUi tapA rfl (observed_envC7 0)
    (by decide) rfl rfl (by decide)).trans
  (actPhase_chan_error envC7 0 _ tapA buttonUi [.observeCall 0, .decideCall 0]
    ⟨"tap", .xy 200 230⟩ "boom" rfl rfl)

theorem iterC7_1 : iterate envC7 1 ⟨[logBoom 0], [histBoom], tapKey, 1, 0, none⟩ =
    (.next ⟨[logBoom 0, logBoom 1], [histBoom, histBoom], tapKey, 2, 0, none⟩,
     [.observeCall 1, .decideCall 1, .chanCall 1 ⟨"tap", .xy 200 230⟩]) :=
  (iterate_stall_incr envC7 1 ⟨[logBoom 0], [histBoom], tapKey, 1, 0, none⟩
    buttonUi tapA rfl (observed_envC7 1) (by decide) rfl rfl rfl (by decide)).trans
  (actPhase_chan_error envC7 1 _ tapA buttonUi [.observeCall 1, .decideCall 1]
    ⟨"tap", .xy 200 230⟩ "boom" rfl rfl)

theorem iterC7_2 :
    iterate envC7 2 ⟨[logBoom 0, logBoom 1], [histBoom, histBoom], tapKey, 2, 0, none⟩ =
    (.halt [logBoom 0, logBoom 1, ⟨2, .str "abort",
      .str "Same action repeated 3 times — stuck", .str "failed"⟩],
     [.observeCall 2, .decideCall 2]) :=
  iterate_stall_abort envC7 2 ⟨[logBoom 0, logBoom 1], [histBoom, histBoom], tapKey, 2, 0, none⟩
    buttonUi tapA rfl (observed_envC7 2) (by decide) rfl rfl rfl (by decide)

theorem runC7 : automationRun envC7 =
    .ok ([logBoom 0, logBoom 1, ⟨2, .str "abort",
        .str "Same action repeated 3 times — stuck", .str "failed"⟩],
      [.observeCall 0, .decideCall 0, .chanCall 0 ⟨"tap", .xy 200 230⟩,
       .observeCall 1, .decideCall 1, .chanCall 1 ⟨"tap", .xy 200 230⟩,
       .observeCall 2, .decideCall 2], 3) := by
  have t1 := loopAux_step_next envC7 19 0 initialState [] _ _ iterC7_0
  have t2 := loopAux_step_next envC7 18 1 _
    ([] ++ [.observeCall 0, .decideCall 0, .chanCall 0 ⟨"tap", .xy 200 230⟩]) _ _ iterC7_1
  have t3 := loopAux_step_halt envC7 17 2 _
    (([] ++ [.observeCall 0, .decideCall 0, .chanCall 0 ⟨"tap", .xy 200 230⟩]) ++
      [.observeCall 1, .decideCall 1, .chanCall 1 ⟨"tap", .xy 200 230⟩]) _ _ iterC7_2
  exact t1.trans (t2.trans t3)

/-- C7 (counterexample): with every action channel call throwing
`boom`, the loop does not propagate the error — each throw is caught,
logged as `error: boom`, and the run still ends in a rendered report
(here via the stall abort). -/
theorem claim_C7_counterexample :
    (∀ n c, envC7.chan n c = .error "boom") ∧
    automationLoop envC7 "send" = .ok (renderReport "send"
      [logBoom 0, logBoom 1, ⟨2, .str "abort",
        .str "Same action repeated 3 times — stuck", .str "failed"⟩]) := by
  refine ⟨fun n c => rfl, ?_⟩
  unfold automationLoop
  rw [runC7]

/-- C7 (amended): a Command Channel throw during the observation
round trip propagates out of the loop and surfaces as
`Phone automation failed: <message>` with the partial report
discarded; but an act-phase channel throw is caught and absorbed into
the StepLog (`error: <message>`), as are a decision error
(`llm_error` entry) and a bounded empty observation (a retry). -/
theorem claim_C7 :
    (∀ (env : Env) (goal m : String), goal ≠ "" → env.observe 0 = .error m →
      automationLoop env goal = .error m ∧
      phoneDoTask env goal = "Phone automation failed: " ++ m)
    ∧ (∀ (env : Env) (n : Nat) (s : LoopState) (u : Ui) (a : AutoAction)
        (c : ChannelCall) (m : String),
      s.cachedUi = none → observedUi env n = .ok u → u.elements ≠ [] →
      env.decide n = .ok a → (a.action == JsValue.str "done") = false →
      actionKeyOf a ≠ s.lastActionKey →
      executeActionPlan a u.elements = .channel c → env.chan n c = .error m →
      iterate env n s =
        (.next { s with cachedUi := none, emptyUiCount := 0,
                         sameActionCount := 1, lastActionKey := actionKeyOf a,
                         log := s.log ++ [⟨n, a.action, jsOr a.reasoning (.str ""),
                           .str ("error: " ++ m)⟩],
                         actionHistory := s.actionHistory ++
                           [⟨a.action, .str ("FAILED: " ++ m)⟩] },
          [.observeCall n, .decideCall n, .chanCall n c]))
    ∧ (∀ (env : Env) (n : Nat) (s : LoopState) (u : Ui) (m : String),
      s.cachedUi = none → observedUi env n = .ok u → u.elements ≠ [] →
      env.decide n = .error m →
      iterate env n s =
        (.next { s with cachedUi := none, emptyUiCount := 0,
                         log := s.log ++ [⟨n, .str "llm_error", .str m, .str "failed"⟩] },
          [.observeCall n, .decideCall n]))
    ∧ (∀ (env : Env) (n : Nat) (s : LoopState) (u : Ui),
      s.cachedUi = none → observedUi env n = .ok u → u.elements = [] →
      s.emptyUiCount < 2 →
      iterate env n s =
        (.next { s with cachedUi := none, emptyUiCount := s.emptyUiCount + 1 },
          [.observeCall n])) := by
  refine ⟨?_, ?_, ?_, ?_⟩
  · intro env goal m hgoal hobs
    have hobs2 : observedUi env 0 = .error m := by
      unfold observedUi
      rw [hobs]
    have hiter := iterate_obs_error env 0 initialState m rfl hobs2
    have hrun : automationRun env = .error m := by
      unfold automationRun
      exact loopAux_fail_first env MAX_STEPS 0 initialState [] m _ (by decide) hiter
    constructor
    · unfold automationLoop
      rw [hrun]
    · unfold phoneDoTask
      rw [if_neg hgoal]
      unfold automationLoop
      rw [hrun]
  · intro env n s u a c m hc ho he hd hdone hkey hplan hchan
    exact (iterate_newkey env n s u a hc ho he hd hdone hkey).trans
      (actPhase_chan_error env n _ a u [.observeCall n, .decideCall n] c m hplan hchan)
  · intro env n s u m hc ho he hd
    exact iterate_decide_error env n s u m hc ho he hd
  · intro env n s u hc ho he hcnt
    exact iterate_empty_continue env n s u hc ho he hcnt

/-- An environment whose observation round trip throws. -/
def envC7a : Env :=
  ⟨fun _ => .error "io failure",
   fun _ => .error "no decision",
   fun _ _ => .error "no channel"⟩

theorem claim_C7_witness :
    phoneDoTask envC7a "open settings" = "Phone automation failed: io failure" ∧
    iterate envC7 0 initialState =
      (.next ⟨[logBoom 0], [histBoom], tapKey, 1, 0, none⟩,
       [.observeCall 0, .decideCall 0, .chanCall 0 ⟨"tap", .xy 200 230⟩]) ∧
    iterate envC3 0 ⟨[], [], "", 0, 0, none⟩ =
      (.next ⟨[], [], "", 0, 1, none⟩, [.observeCall 0]) := by
  refine ⟨?_, ?_, ?_⟩
  · exact (claim_C7.1 envC7a "open settings" "io failure" (by decide) rfl).2
  · exact claim_C7.2.1 envC7 0 initialState buttonUi tapA ⟨"tap", .xy 200 230⟩ "boom"
      rfl (observed_envC7 0) (by decide) rfl rfl (by decide) rfl rfl
  · exact claim_C7.2.2.2 envC3 0 ⟨[], [], "", 0, 0, none⟩ unreadableUi rfl rfl rfl
      (by decide)

-- ─── C8 ───

/-- An otherwise-eligible Button whose bounds rectangle has zero
width. -/
def zeroAreaNode : JsValue :=
  .obj (.cons "class" (.str "android.widget.Button")
    (.cons "text" (.str "Send")
      (.cons "bounds" (.str "[100,200][100,260]")
        (.cons "clickable" (.bool true) .nil))))

theorem walk_zeroArea_eval : walk zeroAreaNode [] = .ok [] := by
  rw [walk.eq_def]
  rfl

/-- C8: every element of a compressed tree has a strictly
positive-area rectangle (`right > left`, `bottom > top`); a node
whose bounds describe a zero-area rectangle yields no element even
when it is otherwise eligible. -/
theorem claim_C8 :
    (∀ (raw : JsValue) (t : String) (els : List UiElement),
      compressUiTree raw = .ok (t, els) →
      ∀ el ∈ els, el.bounds.left < el.bounds.right ∧
        el.bounds.top < el.bounds.bottom)
    ∧ compressUiTree zeroAreaNode = .ok ("", []) := by
  constructor
  · intro raw t els h
    exact compressUiTree_posArea raw (t, els) h
  · have h1 : compressUiRoots zeroAreaNode = .ok [] := by
      show walk zeroAreaNode [] = .ok []
      exact walk_zeroArea_eval
    simp only [compressUiTree, h1]
    rfl

theorem claim_C8_witness :
    buttonElement.bounds.left < buttonElement.bounds.right ∧
    buttonElement.bounds.top < buttonElement.bounds.bottom :=
  claim_C8.1 buttonNode "[0] Button \x22Send\x22 [200,230] clickable"
    [buttonElement] compress_button_eval buttonElement (by simp)

-- ─── C9 ───

/-- C9: the Button scenario compresses to exactly one element —
index 0, class `Button`, text `Send`, center `(200,230)`, only the
clickable flag set — rendered as `[0] Button "Send" [200,230]
clickable`. -/
theorem claim_C9 :
    compressUiTree buttonNode =
      .ok ("[0] Button \x22Send\x22 [200,230] clickable",
        [⟨0, "Button", "Send", ⟨200, 230, 100, 200, 300, 260⟩,
          true, false, false, none⟩]) ∧
    renderElement ⟨0, "Button", "Send", ⟨200, 230, 100, 200, 300, 260⟩,
        true, false, false, none⟩ =
      "[0] Button \x22Send\x22 [200,230] clickable" :=
  ⟨compress_button_eval, rfl⟩

-- ─── C10 ───

theorem good_nodeFields {v : JsValue} (hg : good v = true) :
    strOrFalsy (getField v "text") = true ∧
    strOrFalsy (getField v "content-desc") = true ∧
    strOrFalsy (getField v "contentDescription") = true ∧
    strOrFalsy (getField v "class") = true ∧
    strOrFalsy (getField v "className") = true ∧
    strOrFalsy (getField v "bounds") = true ∧
    strOrFalsy (getField v "boundsInScreen") = true := by
  cases v with
  | obj fs =>
    unfold good at hg
    rw [Bool.and_eq_true] at hg
    have hn := hg.1
    unfold goodNode at hn
    simp only [Bool.and_eq_true] at hn
    obtain ⟨⟨⟨⟨⟨⟨h1, h2⟩, h3⟩, h4⟩, h5⟩, h6⟩, h7⟩ := hn
    exact ⟨h1, h2, h3, h4, h5, h6, h7⟩
  | undef => exact ⟨rfl, rfl, rfl, rfl, rfl, rfl, rfl⟩
  | null => exact ⟨rfl, rfl, rfl, rfl, rfl, rfl, rfl⟩
  | bool b => exact ⟨rfl, rfl, rfl, rfl, rfl, rfl, rfl⟩
  | num n => exact ⟨rfl, rfl, rfl, rfl, rfl, rfl, rfl⟩
  | str s => exact ⟨rfl, rfl, rfl, rfl, rfl, rfl, rfl⟩
  | arr xs => exact ⟨rfl, rfl, rfl, rfl, rfl, rfl, rfl⟩

theorem walk_walkList_noerr : ∀ (m : Nat),
    (∀ node, sizeOf node ≤ m → good node = true →
      ∀ acc e, walk node acc ≠ .error e)
    ∧ (∀ ns : JsArr, sizeOf ns ≤ m → goodArr ns = true →
      ∀ acc e, walkList ns acc ≠ .error e) := by
  intro m
  induction m using Nat.strong_induction_on with
  | _ m ih =>
    constructor
    · intro node hsz hg acc e hw
      obtain ⟨htext, hcd, hcD, hcls, hclsN, hbnd, hbndIS⟩ := good_nodeFields hg
      unfold walk at hw
      split at hw
      · cases hw
      · simp only [] at hw
        split at hw
        · rename_i e2 hclsErr
          obtain ⟨cls, hcls2⟩ := asString_of_chain hcls hclsN "cls.toLowerCase"
          rw [hcls2] at hclsErr
          cases hclsErr
        · rename_i cls hclsOk
          split at hw
          · rename_i e2 hpushedErr
            split at hpushedErr
            · split at hpushedErr
              · rename_i e3 htextErr
                obtain ⟨text, htext2⟩ := asString_of_chain3 htext hcd hcD "text.trim"
                rw [htext2] at htextErr
                cases htextErr
              · rename_i text htextOk
                split at hpushedErr
                · split at hpushedErr
                  · rename_i e4 hbndErr
                    obtain ⟨bs, hbs⟩ := asString_of_chain hbnd hbndIS "boundsStr.match"
                    rw [hbs] at hbndErr
                    cases hbndErr
                  · rename_i bstr hbndOk
                    split at hpushedErr
                    · cases hpushedErr
                    · cases hpushedErr
                · cases hpushedErr
            · cases hpushedErr
          · rename_i acc2 hpushedOk
            split at hw
            · cases hw
            · rename_i c cs hch
              have hlt := childrenOf_sizeOf_lt node c cs hch
              have hgcs := good_childrenOf hg c cs hch
              have hgarr : goodArr (.cons c cs) = true := by
                unfold goodArr
                rw [Bool.and_eq_true]
                exact hgcs
              exact (ih (sizeOf (JsArr.cons c cs)) (by omega)).2 (JsArr.cons c cs)
                (Nat.le_refl _) hgarr acc2 e hw
    · intro ns hsz hg acc e hw
      cases ns with
      | nil =>
        unfold walkList at hw
        cases hw
      | cons n rest =>
        obtain ⟨hgn, hgr⟩ := goodArr_head hg
        unfold walkList at hw
        split at hw
        · rename_i e2 hn
          have hsn : 0 < sizeOf rest := by cases rest <;> simp
          simp only [JsArr.cons.sizeOf_spec] at hsz
          exact (ih (sizeOf n) (by omega)).1 n (Nat.le_refl _) hgn acc e2 hn
        · rename_i acc2 hn
          have hsr : 0 < sizeOf n := by cases n <;> simp
          simp only [JsArr.cons.sizeOf_spec] at hsz
          exact (ih (sizeOf rest) (by omega)).2 rest (Nat.le_refl _) hgr acc2 e hw

theorem walk_total (node : JsValue) (hg : good node = true) (acc : List UiElement) :
    ∃ out, walk node acc = .ok out := by
  cases hw : walk node acc with
  | error e =>
    exact absurd hw
      ((walk_walkList_noerr (sizeOf node)).1 node (Nat.le_refl _) hg acc e)
  | ok out => exact ⟨out, rfl⟩

theorem walkList_total (ns : JsArr) (hg : goodArr ns = true) (acc : List UiElement) :
    ∃ out, walkList ns acc = .ok out := by
  cases hw : walkList ns acc with
  | error e =>
    exact absurd hw
      ((walk_walkList_noerr (sizeOf ns)).2 ns (Nat.le_refl _) hg acc e)
  | ok out => exact ⟨out, rfl⟩

/-- C10 (counterexample): the compressor is not total — the object
node `\x7btext: 1\x7d` makes it throw the `text.trim` `TypeError`. -/
theorem claim_C10_counterexample :
    compressUiTree (.obj (.cons "text" (.num 1) .nil)) =
      .error "TypeError: text.trim is not a function" :=
  compress_textNum_eval

/-- C10 (amended): an input that is neither an object nor an array
compresses to text `""` and no elements; and the compressor returns
without throwing on every tree all of whose text/description, class
and bounds fields are strings whenever truthy (absent fields
included) — but not on arbitrary input, where a truthy non-string in
one of those fields raises a `TypeError`. -/
theorem claim_C10 :
    (∀ v : JsValue, (∀ fs, v ≠ .obj fs) → (∀ xs, v ≠ .arr xs) →
      compressUiTree v = .ok ("", [])) ∧
    (∀ v : JsValue, good v = true → (compressUiTree v).isOk = true) := by
  constructor
  · intro v hobj harr
    cases v with
    | obj fs => exact absurd rfl (hobj fs)
    | arr xs => exact absurd rfl (harr xs)
    | undef => rfl
    | null => rfl
    | bool b => rfl
    | num n => rfl
    | str s => rfl
  · intro v hg
    unfold compressUiTree
    cases v with
    | obj fs =>
      obtain ⟨out, hout⟩ := walk_total (.obj fs) hg []
      have h1 : compressUiRoots (.obj fs) = .ok out := by
        show walk (.obj fs) [] = .ok out
        exact hout
      simp only [h1]
      rfl
    | arr xs =>
      have hga : goodArr xs = true := by
        unfold good at hg
        exact hg
      obtain ⟨out, hout⟩ := walkList_total xs hga []
      have h1 : compressUiRoots (.arr xs) = .ok out := by
        show walkList xs [] = .ok out
        exact hout
      simp only [h1]
      rfl
    | undef => rfl
    | null => rfl
    | bool b => rfl
    | num n => rfl
    | str s => rfl

theorem claim_C10_witness :
    compressUiTree (.str "hello") = .ok ("", []) ∧
    (compressUiTree buttonNode).isOk = true := by
  constructor
  · exact claim_C10.1 (.str "hello")
      (fun fs h => JsValue.noConfusion h) (fun xs h => JsValue.noConfusion h)
  · exact claim_C10.2 buttonNode (by decide)

end Farid
